import Mathlib

/-!
# Dawn Engine: replication layout, network data and RPC dispatch

A shallow embedding of `src/dawn/net/NetData.cpp` and `src/dawn/net/Rpc.cpp`, of the session
methods of `src/dawn/core/Engine.cpp` and of `Converter<int>` in
`src/dawn/engine/ConfigNode.i.h`.

* `std::map<RpcId, SharedPtr<RpcBinding>>` is a list of (key, binding) pairs kept in ascending
  key order; iterating the map is iterating the list.
* `RpcId` is an unsigned integer type whose declaration is not among the sources; its width in
  bits is the parameter `w` of the operations that count ids: `next_rpc_id_++` is
  `(n + 1) % 2 ^ w`.
* Objects reached through pointers (property replicators, RPC bindings) are values of a type
  parameter; calls into them are recorded in a trace of effects.
-/

namespace dw

/-! ## The RPC map -/

/-- The type `RpcBindingMap` (`Map<RpcId, SharedPtr<RpcBinding>>`): the entries of the ordered
map, in ascending key order. -/
abbrev RpcBindingMap (R : Type) := List (Nat × R)

namespace RpcBindingMap

/-- The statement `m[k] = v` of `std::map`: overwrite the entry stored under `k` when there is
one, insert a new entry at its place in key order otherwise. -/
def assign {R : Type} : RpcBindingMap R → Nat → R → RpcBindingMap R
  | [], k, v => [(k, v)]
  | (k', v') :: m, k, v =>
    if k < k' then (k, v) :: (k', v') :: m
    else if k = k' then (k, v) :: m
    else (k', v') :: assign m k v

/-- The call `m.find(k)`: the binding stored under `k`, `none` standing for `m.end()`. -/
def find {R : Type} : RpcBindingMap R → Nat → Option R
  | [], _ => none
  | (k', v') :: m, k => if k = k' then some v' else find m k

/-- The keys of the map, in iteration order. -/
def keys {R : Type} (m : RpcBindingMap R) : List Nat := m.map Prod.fst

/-- The bindings of the map, in iteration order. -/
def bindings {R : Type} (m : RpcBindingMap R) : List R := m.map Prod.snd

end RpcBindingMap

/-! ## RepLayout -/

/-- The class `RepLayout`: the property list (a vector of property replicators), the RPC map and
the next RPC id to hand out. -/
structure RepLayout (P R : Type) where
  /-- The member `property_list_`. -/
  property_list_ : List P
  /-- The member `rpc_map_`. -/
  rpc_map_ : RpcBindingMap R
  /-- The member `next_rpc_id_`, of type `RpcId`. -/
  next_rpc_id_ : Nat
  deriving DecidableEq, Repr

namespace RepLayout

variable {P R : Type}

/-- The default constructor `RepLayout::RepLayout()`. -/
def new : RepLayout P R :=
  { property_list_ := [], rpc_map_ := [], next_rpc_id_ := 0 }

/-- The loop body `rpc_map_[next_rpc_id_++] = rpc` shared by the list constructor and
`operator+=`; `w` is the width of `RpcId` in bits. -/
def bindNext (w : Nat) (self : RepLayout P R) (rpc : R) : RepLayout P R :=
  { self with
    rpc_map_ := RpcBindingMap.assign self.rpc_map_ self.next_rpc_id_ rpc
    next_rpc_id_ := (self.next_rpc_id_ + 1) % 2 ^ w }

/-- The list constructor `RepLayout::RepLayout(property_list, rpc_list)`. -/
def ofLists (w : Nat) (property_list : List P) (rpc_list : List R) : RepLayout P R :=
  rpc_list.foldl (bindNext w)
    { property_list_ := property_list, rpc_map_ := [], next_rpc_id_ := 0 }

/-- The operator `RepLayout::operator+=`: the new state of `*this` (which is also the value
behind the returned reference). `other` is an object distinct from `*this`. -/
def addAssign (w : Nat) (self other : RepLayout P R) : RepLayout P R :=
  other.rpc_map_.foldl (fun acc rpc => bindNext w acc rpc.2)
    { self with property_list_ := self.property_list_ ++ other.property_list_ }

/-- The operator `RepLayout::operator+` (a non-const member): the state of `*this` after the
call, and the returned layout. -/
def add (w : Nat) (self other : RepLayout P R) : RepLayout P R × RepLayout P R :=
  let result : RepLayout P R := new
  let result := { result with property_list_ := self.property_list_ }
  let result := { result with rpc_map_ := self.rpc_map_ }
  let result := { result with next_rpc_id_ := self.next_rpc_id_ }
  let result := addAssign w result other
  (self, result)

end RepLayout

/-- The layouts a program can build: the two constructors, closed under `operator+` and
`operator+=` (the members of `RepLayout` are not accessible otherwise). -/
inductive RepLayout.Reachable {P R : Type} (w : Nat) : RepLayout P R → Prop
  | new : Reachable w RepLayout.new
  | ofLists (property_list : List P) (rpc_list : List R) :
      Reachable w (RepLayout.ofLists w property_list rpc_list)
  | add (a b : RepLayout P R) : Reachable w a → Reachable w b →
      Reachable w (RepLayout.add w a b).2
  | addAssign (a b : RepLayout P R) : Reachable w a → Reachable w b →
      Reachable w (RepLayout.addAssign w a b)

/-! ## Streams and property replicators -/

/-- Ways a call stops before its end. -/
inductive Fault
  /-- A null pointer is dereferenced. -/
  | nullDeref
  /-- An `assert` fails. -/
  | assertFailed
  /-- A read of an input stream fails inside a property replicator. -/
  | readFault
  /-- A vector is indexed at or beyond its size. -/
  | outOfRange
  deriving DecidableEq, Repr

/-- One `u8` of a stream. -/
abbrev Byte := Fin 256

/-- An `OutputStream`: the bytes written so far. -/
abbrev OutputStream := List Byte

/-- An `InputStream`: the bytes from the read position to the end. -/
abbrev InputStream := List Byte

/-- Modelled from the spec: the class `RepProperty` (the "Property Replicator" interface,
`serialize(out) / deserialize(in)`) is not among the sources. A replicator wraps one field of
the entity (`value`); `encode` gives the bytes it writes for a field value, `decode` what it
makes of an input stream: the new field value and the stream it leaves, or the fault its read
ends in. -/
structure RepProperty (V : Type) where
  /-- The field of the entity the replicator wraps. -/
  value : V
  /-- The bytes the replicator writes for a value of the field. -/
  encode : V → List Byte
  /-- The value the replicator sets from the current value and the input, and the rest of the
  input; or the fault of a read that fails. -/
  decode : V → InputStream → Except Fault (V × InputStream)

/-- The virtual call `prop->serialise(out)`: append the bytes of the field value. -/
def RepProperty.serialise {V : Type} (prop : RepProperty V) (out : OutputStream) : OutputStream :=
  out ++ prop.encode prop.value

/-- The virtual call `prop->deserialise(in)`: the replicator after the call and the stream it
leaves, or the fault that stops it. -/
def RepProperty.deserialise {V : Type} (prop : RepProperty V) (inp : InputStream) :
    Except Fault (RepProperty V × InputStream) :=
  match prop.decode prop.value inp with
  | .error f => .error f
  | .ok r => .ok ({ prop with value := r.1 }, r.2)

/-- A replicator of a one-byte field whose read is bounded and silent: it writes the byte, and
reads one byte when the input has one (the field keeps its value on an empty input). -/
def RepProperty.u8 (value : Byte) : RepProperty Byte :=
  { value := value
    encode := fun v => [v]
    decode := fun cur inp =>
      match inp with
      | [] => .ok (cur, [])
      | b :: rest => .ok (b, rest) }

/-- A replicator of a one-byte field whose read fails on an empty input. -/
def RepProperty.u8Checked (value : Byte) : RepProperty Byte :=
  { value := value
    encode := fun v => [v]
    decode := fun _ inp =>
      match inp with
      | [] => .error Fault.readFault
      | b :: rest => .ok (b, rest) }

/-- Modelled from the spec: the read of a property replicator (`RepProperty::deserialise` and
the `InputStream` it reads are not among the sources). The spec has a short input be "a
propagated read fault (reported, not silently ignored)" and a read be bounded, consuming what
`serialize` would have produced: the replicator writes `width` bytes for every value; its read
fails with a read fault when the input holds fewer than `width` bytes, and a read that succeeds
has taken exactly the first `width` bytes of the input. -/
def RepProperty.ReadsChecked {V : Type} (prop : RepProperty V) (width : Nat) : Prop :=
  (∀ v : V, (prop.encode v).length = width) ∧
  (∀ (cur : V) (inp : InputStream), inp.length < width →
    prop.decode cur inp = .error Fault.readFault) ∧
  (∀ (cur v : V) (inp rest : InputStream), prop.decode cur inp = .ok (v, rest) →
    rest = inp.drop width)

/-! ## Roles, entities, effects -/

/-- The enum `NetRole`. -/
inductive NetRole
  | None
  | Authority
  | AuthoritativeProxy
  | SimulatedProxy
  deriving DecidableEq, Repr

/-- The enum `RpcType`. -/
inductive RpcType
  | Server
  | Client
  deriving DecidableEq, Repr

/-- What the networking code reads from an `Entity`: `Entity::id()` and the answer of
`entity.module<Networking>()->isServer()` (the `Networking` module is taken to be present). -/
structure Entity where
  /-- The value of `Entity::id()`. -/
  id : Nat
  /-- The value of `module<Networking>()->isServer()`. -/
  isServer : Bool
  deriving DecidableEq, Repr

/-- The `OutputBitStream` an RPC payload arrives in; `vec_data()` is its byte vector. -/
structure OutputBitStream where
  /-- The value of `vec_data()`. -/
  vec_data : List Byte
  deriving DecidableEq, Repr

/-- The calls the dispatch code makes, in the order it makes them. The entries into
`NetData::sendRpc` and `NetData::receiveRpc` are recorded as well as the calls that leave the
core. -/
inductive Call (R : Type)
  /-- Entry into `NetData::sendRpc(rpc_id, type, payload)`. -/
  | NetData_sendRpc (rpc_id : Nat) (type : RpcType) (payload : List Byte)
  /-- Entry into `NetData::receiveRpc(rpc_id, payload)`. -/
  | NetData_receiveRpc (rpc_id : Nat) (payload : List Byte)
  /-- The virtual call `binding->receiveRpc(payload)` on a binding of the RPC map. -/
  | RpcBinding_receiveRpc (binding : R) (payload : List Byte)
  /-- The transport call `net->sendRpc(entity_id, rpc_id, type, payload)`. -/
  | Networking_sendRpc (entity_id : Nat) (rpc_id : Nat) (type : RpcType) (payload : List Byte)
  /-- The call `warn(format, args...)` on a logger. -/
  | Logger_warn (format : String) (args : List Nat)
  deriving DecidableEq, Repr

namespace Call

variable {R : Type}

/-- Is the call an entry into `NetData::sendRpc`? -/
def isNetDataSendRpc : Call R → Bool
  | NetData_sendRpc _ _ _ => true
  | _ => false

/-- Is the call an entry into `NetData::receiveRpc`? -/
def isNetDataReceiveRpc : Call R → Bool
  | NetData_receiveRpc _ _ => true
  | _ => false

/-- Is the call an invocation of an RPC binding? -/
def isBindingReceiveRpc : Call R → Bool
  | RpcBinding_receiveRpc _ _ => true
  | _ => false

/-- Is the call a call of the transport's `sendRpc`? -/
def isNetworkingSendRpc : Call R → Bool
  | Networking_sendRpc _ _ _ _ => true
  | _ => false

/-- Is the call a warning? -/
def isWarn : Call R → Bool
  | Logger_warn _ _ => true
  | _ => false

end Call

/-! ## Binding a layout to an entity -/

/-- The calls made while a layout is bound to an entity, in the order they are made. -/
inductive BindCall (P R : Type)
  /-- The virtual call `prop->onAddToEntity(entity)` on a property replicator. -/
  | RepProperty_onAddToEntity (prop : P) (entity : Entity)
  /-- The virtual call `rpc->onAddToEntity(entity, rpc_id)` on an RPC binding. -/
  | RpcBinding_onAddToEntity (binding : R) (entity : Entity) (rpc_id : Nat)
  deriving DecidableEq, Repr

namespace BindCall

variable {P R : Type}

/-- Is the call made on a property replicator? -/
def isProperty : BindCall P R → Bool
  | RepProperty_onAddToEntity _ _ => true
  | _ => false

/-- Is the call made on an RPC binding? -/
def isRpcBinding : BindCall P R → Bool
  | RpcBinding_onAddToEntity _ _ _ => true
  | _ => false

/-- The rpc id a call hands to an RPC binding. -/
def rpcId? : BindCall P R → Option Nat
  | RpcBinding_onAddToEntity _ _ rpc_id => some rpc_id
  | _ => none

end BindCall

namespace RepLayout

variable {P R : Type}

/-- The first loop of `RepLayout::onAddToEntity`, over the property list: the replicators after
the loop and the calls made. `propOnAdd` is what `onAddToEntity` makes of a replicator. -/
def onAddToEntityProps (propOnAdd : P → Entity → P) (entity : Entity) :
    List P → List P × List (BindCall P R)
  | [] => ([], [])
  | prop :: rest =>
    let r := onAddToEntityProps propOnAdd entity rest
    (propOnAdd prop entity :: r.1, BindCall.RepProperty_onAddToEntity prop entity :: r.2)

/-- The second loop of `RepLayout::onAddToEntity`, over the RPC map in iteration order: the map
after the loop and the calls made. `rpcOnAdd` is what `onAddToEntity` makes of a binding. -/
def onAddToEntityRpcs (rpcOnAdd : R → Entity → Nat → R) (entity : Entity) :
    RpcBindingMap R → RpcBindingMap R × List (BindCall P R)
  | [] => ([], [])
  | rpc :: rest =>
    let r := onAddToEntityRpcs rpcOnAdd entity rest
    ((rpc.1, rpcOnAdd rpc.2 entity rpc.1) :: r.1,
      BindCall.RpcBinding_onAddToEntity rpc.2 entity rpc.1 :: r.2)

/-- The method `RepLayout::onAddToEntity(entity)`: the layout after the call and the calls
made. -/
def onAddToEntity (propOnAdd : P → Entity → P) (rpcOnAdd : R → Entity → Nat → R)
    (self : RepLayout P R) (entity : Entity) : RepLayout P R × List (BindCall P R) :=
  let ps := onAddToEntityProps propOnAdd entity self.property_list_
  let rs := onAddToEntityRpcs rpcOnAdd entity self.rpc_map_
  ({ self with property_list_ := ps.1, rpc_map_ := rs.1 }, ps.2 ++ rs.2)

end RepLayout

/-! ## NetData -/

/-- The class `NetData`. -/
structure NetData (P R : Type) where
  /-- The member `entity_`; `none` is the null pointer. -/
  entity_ : Option Entity
  /-- The member `rep_layout_`. -/
  rep_layout_ : RepLayout P R
  /-- The member `role_`. -/
  role_ : NetRole
  /-- The member `remote_role_`. -/
  remote_role_ : NetRole

namespace NetData

variable {P R V : Type}

/-- The constructor `NetData::NetData(rep_layout)`. -/
def new (rep_layout : RepLayout P R) : NetData P R :=
  { entity_ := none, rep_layout_ := rep_layout, role_ := NetRole.None,
    remote_role_ := NetRole.None }

/-- The getter `NetData::role()`. -/
def role (self : NetData P R) : NetRole := self.role_

/-- The getter `NetData::remoteRole()`. -/
def remoteRole (self : NetData P R) : NetRole := self.remote_role_

/-- The method `NetData::onAddToEntity(parent)`: the object after the call and the calls made;
a null `parent` is dereferenced for the call on the layout. -/
def onAddToEntity (propOnAdd : P → Entity → P) (rpcOnAdd : R → Entity → Nat → R)
    (self : NetData P R) (parent : Option Entity) :
    Except Fault (NetData P R × List (BindCall P R)) :=
  match parent with
  | none => .error Fault.nullDeref
  | some entity =>
    let r := RepLayout.onAddToEntity propOnAdd rpcOnAdd self.rep_layout_ entity
    .ok ({ self with entity_ := some entity, rep_layout_ := r.1 }, r.2)

/-- The loop of `NetData::serialise` over a property list. -/
def serialiseLoop : List (RepProperty V) → OutputStream → OutputStream
  | [], out => out
  | prop :: rest, out => serialiseLoop rest (prop.serialise out)

/-- The method `NetData::serialise(out)`: the object after the call and the output stream. -/
def serialise (self : NetData (RepProperty V) R) (out : OutputStream) :
    NetData (RepProperty V) R × OutputStream :=
  (self, serialiseLoop self.rep_layout_.property_list_ out)

/-- The loop of `NetData::deserialise` over a property list: the replicators after the loop
and the stream it leaves. The loop has no check of its own; a fault of a replicator stops it. -/
def deserialiseLoop :
    List (RepProperty V) → InputStream → Except Fault (List (RepProperty V) × InputStream)
  | [], inp => .ok ([], inp)
  | prop :: rest, inp =>
    match prop.deserialise inp with
    | .error f => .error f
    | .ok r =>
      match deserialiseLoop rest r.2 with
      | .error f => .error f
      | .ok rs => .ok (r.1 :: rs.1, rs.2)

/-- The method `NetData::deserialise(in)`: the object after the call and the input stream, or
the fault of the replicator that stopped it. -/
def deserialise (self : NetData (RepProperty V) R) (inp : InputStream) :
    Except Fault (NetData (RepProperty V) R × InputStream) :=
  match deserialiseLoop self.rep_layout_.property_list_ inp with
  | .error f => .error f
  | .ok r =>
    .ok ({ self with rep_layout_ := { self.rep_layout_ with property_list_ := r.1 } }, r.2)

/-- The method `NetData::receiveRpc(rpc_id, payload)`: the object after the call and the calls
made, or the fault that stops it. -/
def receiveRpc (self : NetData P R) (rpc_id : Nat) (payload : List Byte) :
    Except Fault (NetData P R × List (Call R)) :=
  match RpcBindingMap.find self.rep_layout_.rpc_map_ rpc_id with
  | some rpc_func =>
    .ok (self,
      [Call.NetData_receiveRpc rpc_id payload, Call.RpcBinding_receiveRpc rpc_func payload])
  | none =>
    match self.entity_ with
    | none => .error Fault.nullDeref
    | some _ =>
      .ok (self, [Call.NetData_receiveRpc rpc_id payload,
        Call.Logger_warn "Received unregistered RPC with ID %s, ignoring." [rpc_id]])

/-- The method `NetData::sendRpc(rpc_id, type, payload)`: the object after the call and the
calls made, or the fault that stops it. -/
def sendRpc (self : NetData P R) (rpc_id : Nat) (type : RpcType) (payload : List Byte) :
    Except Fault (NetData P R × List (Call R)) :=
  match self.entity_ with
  | none => .error Fault.nullDeref
  | some entity =>
    if entity.isServer then
      match receiveRpc self rpc_id payload with
      | .error f => .error f
      | .ok r => .ok (r.1, Call.NetData_sendRpc rpc_id type payload :: r.2)
    else
      .ok (self, [Call.NetData_sendRpc rpc_id type payload,
        Call.Networking_sendRpc entity.id rpc_id type payload])

end NetData

/-! ## RpcSender -/

/-- The logger behind `Entity::log()`. -/
inductive Logger
  | log
  deriving DecidableEq, Repr

/-- The class `RpcSender`; `none` is the null pointer. The object `net_data_` points to is the
`NetData` of the entity the sender was added to. -/
structure RpcSender (P R : Type) where
  /-- The member `entity_`. -/
  entity_ : Option Entity
  /-- The member `net_data_`. -/
  net_data_ : Option (NetData P R)
  /-- The member `logger_`. -/
  logger_ : Option Logger
  /-- The member `rpc_id_`. -/
  rpc_id_ : Nat

namespace RpcSender

variable {P R : Type}

/-- The constructor `RpcSender::RpcSender()`. -/
def new : RpcSender P R :=
  { entity_ := none, net_data_ := none, logger_ := none, rpc_id_ := 0 }

/-- The method `RpcSender::onAddToEntity(entity, rpc_id)`; `component` is what
`entity.component<CNetData>()` returns. -/
def onAddToEntity (_self : RpcSender P R) (entity : Entity) (component : Option (NetData P R))
    (rpc_id : Nat) : RpcSender P R :=
  { entity_ := some entity, net_data_ := component, logger_ := some Logger.log,
    rpc_id_ := rpc_id }

/-- The method `RpcSender::shouldShortCircuit(type)`. -/
def shouldShortCircuit (self : RpcSender P R) (type : RpcType) : Except Fault Bool :=
  match self.net_data_ with
  | none => .error Fault.assertFailed
  | some net_data =>
    if type = RpcType.Server ∧ net_data.role = NetRole.Authority then .ok true
    else if type = RpcType.Client ∧ net_data.role = NetRole.AuthoritativeProxy then .ok true
    else .ok false

/-- The method `RpcSender::sendServerRpcPayload(payload)`: the `NetData` behind `net_data_`
after the call and the calls made, or the fault that stops it. -/
def sendServerRpcPayload (self : RpcSender P R) (payload : OutputBitStream) :
    Except Fault (NetData P R × List (Call R)) :=
  match self.net_data_ with
  | none => .error Fault.assertFailed
  | some net_data => net_data.sendRpc self.rpc_id_ RpcType.Server payload.vec_data

/-- The method `RpcSender::sendClientRpcPayload(payload)`: the `NetData` behind `net_data_`
after the call and the calls made, or the fault that stops it. -/
def sendClientRpcPayload (self : RpcSender P R) (payload : OutputBitStream) :
    Except Fault (NetData P R × List (Call R)) :=
  match self.net_data_ with
  | none => .error Fault.assertFailed
  | some net_data =>
    if net_data.role ≠ NetRole.AuthoritativeProxy then
      match self.logger_ with
      | none => .error Fault.nullDeref
      | some _ =>
        .ok (net_data,
          [Call.Logger_warn "Trying to send a client RPC from a non-authoritative proxy." []])
    else
      net_data.sendRpc self.rpc_id_ RpcType.Client payload.vec_data

/-- The effect of the calls of a bind trace on the `RpcSender` objects behind the binding
pointers of a layout. Here `R` is the type of the pointers held by the RPC map and `senders`
gives the object each one points to: a call `rpc->onAddToEntity(entity, rpc_id)` runs
`RpcSender::onAddToEntity` on the object behind `rpc`, so a sender that sits in the map under
two ids is written twice. `component` is what `entity.component<CNetData>()` returns. -/
def applyBindCalls [DecidableEq R] (component : Option (NetData P R)) :
    (R → RpcSender P R) → List (BindCall P R) → R → RpcSender P R
  | senders, [] => senders
  | senders, BindCall.RpcBinding_onAddToEntity binding entity rpc_id :: rest =>
    applyBindCalls component
      (Function.update senders binding
        ((senders binding).onAddToEntity entity component rpc_id)) rest
  | senders, BindCall.RepProperty_onAddToEntity _ _ :: rest =>
    applyBindCalls component senders rest

end RpcSender

/-! ## Engine sessions -/

/-- The class `SessionId`. -/
structure SessionId where
  /-- The member `session_index_`, a `u32`. -/
  session_index_ : Nat
  deriving DecidableEq, Repr

/-- The getter `SessionId::index()`. -/
def SessionId.index (self : SessionId) : Nat := self.session_index_

/-- The sessions of the class `Engine`: the member `game_sessions_`, a vector of
`UniquePtr<GameSession>`; `none` is an empty pointer. -/
structure Engine (S : Type) where
  /-- The member `game_sessions_`. -/
  game_sessions_ : List (Option S)
  deriving DecidableEq, Repr

namespace Engine

variable {S : Type}

/-- The method `Engine::addSession(session)`: the engine after the call and the id returned,
`static_cast<u32>(game_sessions_.size()) - 1` in `u32` arithmetic. -/
def addSession (self : Engine S) (session : Option S) : Engine S × SessionId :=
  let game_sessions := self.game_sessions_ ++ [session]
  ({ game_sessions_ := game_sessions },
    { session_index_ := (game_sessions.length % 2 ^ 32 + 2 ^ 32 - 1) % 2 ^ 32 })

/-- The method `Engine::replaceSession(session_id, session)`, with `assert` checked: the
assertion `game_sessions_.size() < session_id.index()` comes first, then the assignment to
`game_sessions_[session_id.index()]`. -/
def replaceSession (self : Engine S) (session_id : SessionId) (session : Option S) :
    Except Fault (Engine S) :=
  if ¬ (self.game_sessions_.length < session_id.index) then .error Fault.assertFailed
  else if session_id.index < self.game_sessions_.length then
    .ok { game_sessions_ := self.game_sessions_.set session_id.index session }
  else .error Fault.outOfRange

/-- The method `Engine::removeSession(session_id)`: `game_sessions_[index].reset()`. -/
def removeSession (self : Engine S) (session_id : SessionId) : Except Fault (Engine S) :=
  if session_id.index < self.game_sessions_.length then
    .ok { game_sessions_ := self.game_sessions_.set session_id.index none }
  else .error Fault.outOfRange

end Engine

/-! ## ConfigNode: the converter of `int` -/

/-- The type of a `ConfigNode` (`mType`). The enum is declared outside the sources at hand; the
converters only tell `NT_SCALAR` from the other enumerators. -/
inductive NodeType
  | NT_SCALAR
  | other (tag : Nat)
  deriving DecidableEq, Repr

/-- What the converters read and write of a `ConfigNode`: `mType` and `mData.scalar`. -/
structure ConfigNode where
  /-- The member `mType`. -/
  mType : NodeType
  /-- The member `mData.scalar`, a `std::string`. -/
  scalar : List Char
  deriving DecidableEq, Repr

/-- The exceptions of `std::stoi`. -/
inductive StoiError
  | invalid_argument
  | out_of_range
  deriving DecidableEq, Repr

/-- The C function `isspace` in the "C" locale: space and the characters 9 to 13. -/
def isspace (c : Char) : Bool := c.toNat = 32 || (9 ≤ c.toNat && c.toNat ≤ 13)

/-- The C function `isdigit`: the characters 48 (`0`) to 57 (`9`). -/
def isdigit (c : Char) : Bool := 48 ≤ c.toNat && c.toNat ≤ 57

/-- The decimal digits of a natural number written in front of `acc`, as `sprintf` produces
them: the last digit first, then the digits of the quotient while it is not zero. -/
def decimalDigits : Nat → Nat → List Char → List Char
  | 0, _, acc => acc
  | fuel + 1, n, acc =>
    if n / 10 = 0 then Char.ofNat (48 + n % 10) :: acc
    else decimalDigits fuel (n / 10) (Char.ofNat (48 + n % 10) :: acc)

/-- The function `std::to_string(int)`: what `sprintf` prints for `%d`, a minus sign for a
negative value followed by the decimal digits of the magnitude. -/
def to_string (value : Int) : List Char :=
  if value < 0 then Char.ofNat 45 :: decimalDigits (value.natAbs + 1) value.natAbs []
  else decimalDigits (value.natAbs + 1) value.natAbs []

/-- The value of a sequence of decimal digits, the most significant first. -/
def digitsValue (digits : List Char) : Nat :=
  digits.foldl (fun acc c => acc * 10 + (c.toNat - 48)) 0

/-- The function `std::stoi(str)` with base 10 and a 32-bit `int`: `strtol` skips white space,
takes an optional sign and the longest run of digits; no digit gives `invalid_argument`, a
value outside `INT_MIN .. INT_MAX` gives `out_of_range`. -/
def stoi (str : List Char) : Except StoiError Int :=
  let s := str.dropWhile isspace
  let negative : Bool := match s with
    | c :: _ => c.toNat == 45
    | [] => false
  let s := match s with
    | c :: rest => if c.toNat == 45 || c.toNat == 43 then rest else c :: rest
    | [] => []
  let digits := s.takeWhile isdigit
  if digits.isEmpty then .error StoiError.invalid_argument
  else
    let value : Int := if negative then - (digitsValue digits : Int) else (digitsValue digits : Int)
    if value < - 2 ^ 31 ∨ 2 ^ 31 ≤ value then .error StoiError.out_of_range
    else .ok value

namespace Converter_int

/-- The function `Converter<int>::encode(context, value)`. -/
def encode (value : Int) : ConfigNode :=
  { mType := NodeType.NT_SCALAR, scalar := to_string value }

/-- The function `Converter<int>::decode(logger, node, rhs)`: the value returned, `rhs` after
the call, and the scalars reported to `logger.info`. -/
def decode (node : ConfigNode) (rhs : Int) : Bool × Int × List (List Char) :=
  if node.mType ≠ NodeType.NT_SCALAR then (false, rhs, [])
  else
    match stoi node.scalar with
    | .ok value => (true, value, [])
    | .error _ => (false, rhs, [node.scalar])

end Converter_int

/-! ## Lemmas on the RPC map -/

namespace RpcBindingMap

variable {R : Type}

theorem assign_of_forall_lt (m : RpcBindingMap R) (k : Nat) (v : R)
    (h : ∀ p ∈ m, p.1 < k) : assign m k v = m ++ [(k, v)] := by
  induction m with
  | nil => rfl
  | cons p m ih =>
    obtain ⟨k', v'⟩ := p
    have hk : k' < k := h (k', v') (List.mem_cons_self _ _)
    have h1 : ¬ k < k' := by omega
    have h2 : ¬ k = k' := by omega
    simp only [assign, h1, h2, if_false, List.cons_append]
    rw [ih (fun p hp => h p (List.mem_cons_of_mem _ hp))]

theorem find_assign_self (m : RpcBindingMap R) (k : Nat) (v : R) :
    find (assign m k v) k = some v := by
  induction m with
  | nil => simp [assign, find]
  | cons p m ih =>
    obtain ⟨k', v'⟩ := p
    by_cases h1 : k < k'
    · simp [assign, h1, find]
    · by_cases h2 : k = k'
      · simp [assign, h2, find]
      · simp [assign, h1, h2, find, ih]

theorem find_assign_ne (m : RpcBindingMap R) (k j : Nat) (v : R) (hj : j ≠ k) :
    find (assign m k v) j = find m j := by
  induction m with
  | nil => simp [assign, find, hj]
  | cons p m ih =>
    obtain ⟨k', v'⟩ := p
    by_cases h1 : k < k'
    · simp [assign, h1, find, hj]
    · by_cases h2 : k = k'
      · subst h2
        simp [assign, find, hj]
      · simp [assign, h1, h2, find, ih]

theorem length_le_length_assign (m : RpcBindingMap R) (k : Nat) (v : R) :
    m.length ≤ (assign m k v).length := by
  induction m with
  | nil => simp [assign]
  | cons p m ih =>
    obtain ⟨k', v'⟩ := p
    by_cases h1 : k < k'
    · simp [assign, h1]
    · by_cases h2 : k = k'
      · simp [assign, h2]
      · simp [assign, h1, h2, ih]

theorem assign_enumFrom_length (xs : List R) (v : R) :
    assign (List.enumFrom 0 xs) xs.length v = List.enumFrom 0 (xs ++ [v]) := by
  rw [assign_of_forall_lt, List.enumFrom_append]
  · simp
  · intro p hp
    have := List.fst_lt_add_of_mem_enumFrom hp
    omega

theorem find_enumFrom (xs : List R) (s i : Nat) :
    find (List.enumFrom s xs) (s + i) = xs[i]? := by
  induction xs generalizing s i with
  | nil => simp [find]
  | cons x xs ih =>
    cases i with
    | zero => simp [find]
    | succ i =>
      have h : s + (i + 1) = (s + 1) + i := by omega
      simp only [List.enumFrom_cons, find, List.getElem?_cons_succ]
      rw [if_neg (by omega), h, ih]

theorem keys_enumFrom (xs : List R) :
    keys (List.enumFrom 0 xs) = List.range xs.length := by
  unfold keys
  rw [List.enumFrom_map_fst, List.range_eq_range']

end RpcBindingMap

/-! ## Lemmas on layout composition -/

namespace RepLayout

variable {P R : Type}

theorem foldl_bindNext_property_list (w : Nat) (vs : List R) (L : RepLayout P R) :
    (vs.foldl (bindNext w) L).property_list_ = L.property_list_ := by
  induction vs generalizing L with
  | nil => rfl
  | cons v vs ih => rw [List.foldl_cons, ih]; rfl

theorem foldl_bindNext_length_mono (w : Nat) (vs : List R) (L : RepLayout P R) :
    L.rpc_map_.length ≤ (vs.foldl (bindNext w) L).rpc_map_.length := by
  induction vs generalizing L with
  | nil => exact Nat.le_refl _
  | cons v vs ih =>
    rw [List.foldl_cons]
    exact Nat.le_trans (RpcBindingMap.length_le_length_assign _ _ _) (ih (bindNext w L v))

/-- Binding the values `vs` one after the other onto a layout whose map holds `xs` under the ids
`0 .. |xs| - 1`, when all of them fit. -/
theorem foldl_bindNext_dense (w : Nat) (vs : List R) (L : RepLayout P R) (xs : List R)
    (hmap : L.rpc_map_ = List.enumFrom 0 xs) (hnext : L.next_rpc_id_ = xs.length % 2 ^ w)
    (hfit : xs.length + vs.length ≤ 2 ^ w) :
    vs.foldl (bindNext w) L =
      { property_list_ := L.property_list_, rpc_map_ := List.enumFrom 0 (xs ++ vs),
        next_rpc_id_ := (xs.length + vs.length) % 2 ^ w } := by
  induction vs generalizing L xs with
  | nil =>
    obtain ⟨pl, m, n⟩ := L
    simp only at hmap hnext
    simp [hmap, hnext]
  | cons v vs ih =>
    have hlen : (v :: vs).length = vs.length + 1 := rfl
    have hlt : xs.length < 2 ^ w := by omega
    have hn : L.next_rpc_id_ = xs.length := by rw [hnext, Nat.mod_eq_of_lt hlt]
    rw [List.foldl_cons]
    rw [ih (bindNext w L v) (xs ++ [v])]
    · have e1 : (xs ++ [v]).length + vs.length = xs.length + (v :: vs).length := by
        simp only [List.length_append, List.length_cons, List.length_nil]; omega
      have e2 : xs ++ [v] ++ vs = xs ++ v :: vs := by simp
      rw [e1, e2]
      rfl
    · show RpcBindingMap.assign L.rpc_map_ L.next_rpc_id_ v = _
      rw [hmap, hn, RpcBindingMap.assign_enumFrom_length]
    · show (L.next_rpc_id_ + 1) % 2 ^ w = _
      rw [hn]
      simp
    · simp only [List.length_append, List.length_cons, List.length_nil]
      omega

/-- Once more values are bound than ids remain, the map is full. -/
theorem foldl_bindNext_full (w : Nat) (vs : List R) (L : RepLayout P R) (xs : List R)
    (hmap : L.rpc_map_ = List.enumFrom 0 xs) (hnext : L.next_rpc_id_ = xs.length % 2 ^ w)
    (hle : xs.length ≤ 2 ^ w) (hover : 2 ^ w < xs.length + vs.length) :
    2 ^ w ≤ (vs.foldl (bindNext w) L).rpc_map_.length := by
  have hsplit : vs = vs.take (2 ^ w - xs.length) ++ vs.drop (2 ^ w - xs.length) :=
    (List.take_append_drop _ _).symm
  have htake : (vs.take (2 ^ w - xs.length)).length = 2 ^ w - xs.length := by
    rw [List.length_take]; omega
  rw [hsplit, List.foldl_append]
  refine Nat.le_trans ?_ (foldl_bindNext_length_mono w _ _)
  rw [foldl_bindNext_dense w _ L xs hmap hnext (by omega)]
  simp only [List.enumFrom_length, List.length_append]
  omega

/-- Binding values onto a dense layout, when the result is known not to be full. -/
theorem foldl_bindNext_of_lt (w : Nat) (vs : List R) (L : RepLayout P R) (xs : List R)
    (hmap : L.rpc_map_ = List.enumFrom 0 xs) (hnext : L.next_rpc_id_ = xs.length)
    (hlt : (vs.foldl (bindNext w) L).rpc_map_.length < 2 ^ w) :
    vs.foldl (bindNext w) L =
      { property_list_ := L.property_list_, rpc_map_ := List.enumFrom 0 (xs ++ vs),
        next_rpc_id_ := xs.length + vs.length } := by
  have hxs : xs.length < 2 ^ w := by
    have := foldl_bindNext_length_mono w vs L
    rw [hmap, List.enumFrom_length] at this
    omega
  have hnext2 : L.next_rpc_id_ = xs.length % 2 ^ w := by rw [hnext, Nat.mod_eq_of_lt hxs]
  by_cases hfit : xs.length + vs.length ≤ 2 ^ w
  · have h := foldl_bindNext_dense w vs L xs hmap hnext2 hfit
    rw [h] at hlt
    simp only [List.enumFrom_length, List.length_append] at hlt
    rw [h, Nat.mod_eq_of_lt hlt]
  · have := foldl_bindNext_full w vs L xs hmap hnext2 (Nat.le_of_lt hxs) (by omega)
    omega

theorem addAssign_eq_foldl (w : Nat) (a b : RepLayout P R) :
    addAssign w a b = (RpcBindingMap.bindings b.rpc_map_).foldl (bindNext w)
      { a with property_list_ := a.property_list_ ++ b.property_list_ } := by
  unfold addAssign RpcBindingMap.bindings
  rw [List.foldl_map]

theorem add_snd (w : Nat) (a b : RepLayout P R) : (add w a b).2 = addAssign w a b := rfl

theorem addAssign_property_list (w : Nat) (a b : RepLayout P R) :
    (addAssign w a b).property_list_ = a.property_list_ ++ b.property_list_ := by
  rw [addAssign_eq_foldl, foldl_bindNext_property_list]

/-- The composition of a dense layout with any layout, when all bindings fit. -/
theorem addAssign_dense (w : Nat) (a b : RepLayout P R) (xs : List R)
    (hmap : a.rpc_map_ = List.enumFrom 0 xs) (hnext : a.next_rpc_id_ = xs.length % 2 ^ w)
    (hfit : xs.length + b.rpc_map_.length ≤ 2 ^ w) :
    addAssign w a b =
      { property_list_ := a.property_list_ ++ b.property_list_,
        rpc_map_ := List.enumFrom 0 (xs ++ RpcBindingMap.bindings b.rpc_map_),
        next_rpc_id_ := (xs.length + b.rpc_map_.length) % 2 ^ w } := by
  rw [addAssign_eq_foldl,
    foldl_bindNext_dense w _ { a with property_list_ := a.property_list_ ++ b.property_list_ }
      xs hmap hnext (by simpa [RpcBindingMap.bindings] using hfit)]
  simp [RpcBindingMap.bindings]

/-- The list constructor, when all bindings fit. -/
theorem ofLists_dense (w : Nat) (pl : List P) (rl : List R) (hfit : rl.length ≤ 2 ^ w) :
    ofLists w pl rl =
      { property_list_ := pl, rpc_map_ := List.enumFrom 0 rl,
        next_rpc_id_ := rl.length % 2 ^ w } := by
  unfold ofLists
  rw [foldl_bindNext_dense w rl _ [] rfl (by simp) (by simpa using hfit)]
  simp

/-- Every layout a program can build whose map is not full holds its bindings under the ids
`0 .. n - 1` and has `n` as next id. -/
theorem reachable_dense (w : Nat) (L : RepLayout P R) (hr : Reachable w L)
    (hlt : L.rpc_map_.length < 2 ^ w) :
    L.rpc_map_ = List.enumFrom 0 (RpcBindingMap.bindings L.rpc_map_) ∧
      L.next_rpc_id_ = L.rpc_map_.length := by
  have key : ∀ (a b : RepLayout P R),
      ((a.rpc_map_.length < 2 ^ w) → a.rpc_map_ = List.enumFrom 0 (RpcBindingMap.bindings a.rpc_map_) ∧
        a.next_rpc_id_ = a.rpc_map_.length) →
      (addAssign w a b).rpc_map_.length < 2 ^ w →
      (addAssign w a b).rpc_map_ =
          List.enumFrom 0 (RpcBindingMap.bindings (addAssign w a b).rpc_map_) ∧
        (addAssign w a b).next_rpc_id_ = (addAssign w a b).rpc_map_.length := by
    intro a b iha h
    rw [addAssign_eq_foldl] at h ⊢
    have hmono := foldl_bindNext_length_mono w (RpcBindingMap.bindings b.rpc_map_)
      { a with property_list_ := a.property_list_ ++ b.property_list_ }
    obtain ⟨ha1, ha2⟩ := iha (by simp only at hmono; omega)
    have hn : a.next_rpc_id_ = (RpcBindingMap.bindings a.rpc_map_).length := by
      rw [ha2]; simp [RpcBindingMap.bindings]
    rw [foldl_bindNext_of_lt w _ { a with property_list_ := a.property_list_ ++ b.property_list_ }
      (RpcBindingMap.bindings a.rpc_map_) ha1 hn h]
    simp [RpcBindingMap.bindings, List.enumFrom_map_snd]
  induction hr with
  | new => exact ⟨rfl, rfl⟩
  | ofLists pl rl =>
    unfold ofLists at hlt ⊢
    rw [foldl_bindNext_of_lt w rl _ [] rfl rfl hlt]
    simp [RpcBindingMap.bindings, List.enumFrom_map_snd]
  | add a b _ _ iha _ =>
    rw [add_snd] at hlt ⊢
    exact key a b iha hlt
  | addAssign a b _ _ iha _ => exact key a b iha hlt

end RepLayout

/-! ## Layouts with more bindings than ids -/

namespace RepLayout

variable {P R : Type}

theorem ofLists_singleton (w : Nat) (pl : List P) (b : R) :
    ofLists w pl [b] =
      { property_list_ := pl, rpc_map_ := [(0, b)], next_rpc_id_ := (0 + 1) % 2 ^ w } := rfl

/-- A layout built from exactly `2 ^ w` bindings has wrapped its next id to `0`; composing it
with a one-binding layout stores that binding under id `0`. -/
theorem addAssign_full_singleton (w : Nat) (pa pb : List P) (xs : List R)
    (hlen : xs.length = 2 ^ w) (b : R) :
    addAssign w (ofLists w pa xs) (ofLists w pb [b]) =
      { property_list_ := pa ++ pb,
        rpc_map_ := RpcBindingMap.assign (List.enumFrom 0 xs) 0 b,
        next_rpc_id_ := (0 + 1) % 2 ^ w } := by
  rw [ofLists_dense w pa xs (Nat.le_of_eq hlen), ofLists_singleton, hlen, Nat.mod_self]
  rfl

theorem length_assign_enumFrom_zero (xs : List R) (b : R) (hne : 0 < xs.length) :
    (RpcBindingMap.assign (List.enumFrom 0 xs) 0 b).length = xs.length := by
  cases xs with
  | nil => simp at hne
  | cons x xs => simp [RpcBindingMap.assign]

theorem overflow_find (w : Nat) (pa pb : List P) (xs : List R) (hlen : xs.length = 2 ^ w)
    (b : R) :
    RpcBindingMap.find (add w (ofLists w pa xs) (ofLists w pb [b])).2.rpc_map_ 0 = some b ∧
      RpcBindingMap.find (add w (ofLists w pa xs) (ofLists w pb [b])).2.rpc_map_ (2 ^ w)
        = none := by
  rw [add_snd, addAssign_full_singleton w pa pb xs hlen b]
  refine ⟨RpcBindingMap.find_assign_self _ _ _, ?_⟩
  show RpcBindingMap.find (RpcBindingMap.assign (List.enumFrom 0 xs) 0 b) (2 ^ w) = none
  have hpos : 0 < 2 ^ w := Nat.pow_pos (by decide)
  rw [RpcBindingMap.find_assign_ne _ _ _ _ (by omega)]
  have h := RpcBindingMap.find_enumFrom xs 0 (2 ^ w)
  rw [Nat.zero_add] at h
  rw [h, List.getElem?_eq_none_iff]
  omega

theorem overflow_next (w : Nat) (pb pc : List P) (xs : List R) (hlen : xs.length = 2 ^ w)
    (c : R) :
    (add w (add w (new : RepLayout P R) (ofLists w pb xs)).2 (ofLists w pc [c])).2.next_rpc_id_
        = (0 + 1) % 2 ^ w ∧
      (add w (new : RepLayout P R) (add w (ofLists w pb xs) (ofLists w pc [c])).2).2.next_rpc_id_
        = 0 := by
  have hpos : 0 < 2 ^ w := Nat.pow_pos (by decide)
  constructor
  · have hB : (add w (new : RepLayout P R) (ofLists w pb xs)).2 =
        { property_list_ := pb, rpc_map_ := List.enumFrom 0 xs, next_rpc_id_ := 0 } := by
      rw [add_snd, ofLists_dense w pb xs (Nat.le_of_eq hlen)]
      rw [addAssign_dense w new _ [] rfl (by simp [new]) (by simp [hlen])]
      simp [RpcBindingMap.bindings, List.enumFrom_map_snd, hlen, new]
    rw [hB, add_snd, ofLists_singleton]
    rfl
  · rw [add_snd w (ofLists w pb xs), addAssign_full_singleton w pb pc xs hlen c, add_snd,
      addAssign_dense w new _ [] rfl (by simp [new])
        (by simp [length_assign_enumFrom_zero xs c (by omega), hlen])]
    simp [length_assign_enumFrom_zero xs c (by omega), hlen]

end RepLayout

/-! ## Claims on layout composition -/

/-- C1 (as amended): for layouts A and B built by the list constructor whose bindings together
number at most `2 ^ w` (the number of values of `RpcId`), the RPC map of A + B has exactly the
ids `0 .. |A.rpcs| + |B.rpcs| - 1`, id `i < |A.rpcs|` maps to the i-th binding of A, id
`|A.rpcs| + j` maps to the j-th binding of B, and composing again from the left operand as the
first composition left it gives the same map. -/
theorem C1_compose_rpc_ids {P R : Type} (w : Nat) (pa pb : List P) (ra rb : List R)
    (hfit : ra.length + rb.length ≤ 2 ^ w) :
    RpcBindingMap.keys
        (RepLayout.add w (RepLayout.ofLists w pa ra) (RepLayout.ofLists w pb rb)).2.rpc_map_
      = List.range (ra.length + rb.length) ∧
    (∀ i (hi : i < ra.length), RpcBindingMap.find
        (RepLayout.add w (RepLayout.ofLists w pa ra) (RepLayout.ofLists w pb rb)).2.rpc_map_ i
      = some (ra.get ⟨i, hi⟩)) ∧
    (∀ j (hj : j < rb.length), RpcBindingMap.find
        (RepLayout.add w (RepLayout.ofLists w pa ra) (RepLayout.ofLists w pb rb)).2.rpc_map_
        (ra.length + j)
      = some (rb.get ⟨j, hj⟩)) ∧
    (RepLayout.add w
        (RepLayout.add w (RepLayout.ofLists w pa ra) (RepLayout.ofLists w pb rb)).1
        (RepLayout.ofLists w pb rb)).2.rpc_map_
      = (RepLayout.add w (RepLayout.ofLists w pa ra) (RepLayout.ofLists w pb rb)).2.rpc_map_ := by
  have hmap : (RepLayout.add w (RepLayout.ofLists w pa ra) (RepLayout.ofLists w pb rb)).2.rpc_map_
      = List.enumFrom 0 (ra ++ rb) := by
    rw [RepLayout.add_snd, RepLayout.ofLists_dense w pa ra (by omega),
      RepLayout.ofLists_dense w pb rb (by omega),
      RepLayout.addAssign_dense w _ _ ra rfl rfl (by simpa using hfit)]
    simp [RpcBindingMap.bindings, List.enumFrom_map_snd]
  rw [hmap]
  refine ⟨?_, ?_, ?_, hmap⟩
  · rw [RpcBindingMap.keys_enumFrom, List.length_append]
  · intro i hi
    have h := RpcBindingMap.find_enumFrom (ra ++ rb) 0 i
    rw [Nat.zero_add] at h
    rw [h, List.getElem?_append_left hi, List.getElem?_eq_getElem hi]
    rfl
  · intro j hj
    have h := RpcBindingMap.find_enumFrom (ra ++ rb) 0 (ra.length + j)
    rw [Nat.zero_add] at h
    rw [h, List.getElem?_append_right (by omega), Nat.add_sub_cancel_left,
      List.getElem?_eq_getElem hj]
    rfl

/-- C1 (witness): two list-built layouts of two and three bindings at `w = 16`. -/
theorem C1_compose_rpc_ids_witness :
    [20, 21].length + [22, 23, 24].length ≤ 2 ^ 16 ∧
    RpcBindingMap.keys
        (RepLayout.add 16 (RepLayout.ofLists 16 [1] [20, 21])
          (RepLayout.ofLists 16 [2] [22, 23, 24])).2.rpc_map_
      = List.range ([20, 21].length + [22, 23, 24].length) :=
  ⟨by decide, (C1_compose_rpc_ids 16 [1] [2] [20, 21] [22, 23, 24] (by decide)).1⟩

/-- C1 (counterexample): with a 16-bit `RpcId`, let A be built from `2 ^ 16` bindings `0` and B
from the one binding `1`. In A + B the id `0` maps to the binding of B although the 0-th
binding of A is `0`, and the id `|A.rpcs| + 0` is not a key of the map. -/
theorem C1_overflow_counterexample :
    RpcBindingMap.find
        (RepLayout.add 16 (RepLayout.ofLists 16 ([] : List Nat) (List.replicate (2 ^ 16) 0))
          (RepLayout.ofLists 16 [] [1])).2.rpc_map_ 0 = some 1 ∧
    (List.replicate (2 ^ 16) 0)[0]? = some 0 ∧
    RpcBindingMap.find
        (RepLayout.add 16 (RepLayout.ofLists 16 ([] : List Nat) (List.replicate (2 ^ 16) 0))
          (RepLayout.ofLists 16 [] [1])).2.rpc_map_
        ((List.replicate (2 ^ 16) 0).length + 0) = none := by
  have h := RepLayout.overflow_find 16 ([] : List Nat) [] (List.replicate (2 ^ 16) 0)
    (List.length_replicate _ _) 1
  refine ⟨h.1, ?_, ?_⟩
  · rw [List.getElem?_replicate]
    exact if_pos (Nat.pow_pos (by decide))
  · rw [List.length_replicate, Nat.add_zero]
    exact h.2

/-- C2: every layout reachable from the two constructors by `operator+` and `operator+=` whose
number of bindings `n` fits in `RpcId` (`n < 2 ^ w`) has the keys `0, 1, .., n - 1` in its RPC
map (strictly increasing, without gap or repetition) and `next_rpc_id_ = n`. -/
theorem C2_reachable_ids_dense {P R : Type} (w : Nat) (L : RepLayout P R)
    (hr : RepLayout.Reachable w L) (hfit : L.rpc_map_.length < 2 ^ w) :
    RpcBindingMap.keys L.rpc_map_ = List.range L.rpc_map_.length ∧
    L.next_rpc_id_ = L.rpc_map_.length ∧
    (RpcBindingMap.keys L.rpc_map_).Pairwise (fun i j => i < j) ∧
    (RpcBindingMap.keys L.rpc_map_).Nodup := by
  obtain ⟨h1, h2⟩ := RepLayout.reachable_dense w L hr hfit
  have hk : RpcBindingMap.keys L.rpc_map_ = List.range L.rpc_map_.length := by
    conv_lhs => rw [h1]
    rw [RpcBindingMap.keys_enumFrom]
    simp [RpcBindingMap.bindings]
  refine ⟨hk, h2, ?_, ?_⟩
  · rw [hk]; exact List.pairwise_lt_range _
  · rw [hk]; exact List.nodup_range _

/-- C2 (witness): a layout built by both constructors, `operator+` and `operator+=`. -/
theorem C2_reachable_ids_dense_witness :
    RepLayout.Reachable 16
      (RepLayout.addAssign 16
        (RepLayout.add 16 (RepLayout.ofLists 16 [1] [20, 21]) (RepLayout.new)).2
        (RepLayout.ofLists 16 [2] [22])) ∧
    (RepLayout.addAssign 16
        (RepLayout.add 16 (RepLayout.ofLists 16 [1] [20, 21]) (RepLayout.new)).2
        (RepLayout.ofLists 16 [2] [22])).rpc_map_.length < 2 ^ 16 ∧
    (RepLayout.addAssign 16
        (RepLayout.add 16 (RepLayout.ofLists 16 [1] [20, 21]) (RepLayout.new)).2
        (RepLayout.ofLists 16 [2] [22])).next_rpc_id_ = 3 :=
  ⟨.addAssign _ _ (.add _ _ (.ofLists _ _) .new) (.ofLists _ _), by decide,
    (C2_reachable_ids_dense 16 _
      (.addAssign _ _ (.add _ _ (.ofLists _ _) .new) (.ofLists _ _)) (by decide)).2.1⟩

/-- C3 (as amended): for layouts A, B a program can build and any layout C, whose bindings
together fit in `RpcId` (their number is below `2 ^ w`), (A + B) + C and A + (B + C) are the
same layout: same property list, same RPC map, same next id. -/
theorem C3_add_assoc {P R : Type} (w : Nat) (a b c : RepLayout P R)
    (ha : RepLayout.Reachable w a) (hb : RepLayout.Reachable w b)
    (hfit : a.rpc_map_.length + b.rpc_map_.length + c.rpc_map_.length < 2 ^ w) :
    (RepLayout.add w (RepLayout.add w a b).2 c).2
      = (RepLayout.add w a (RepLayout.add w b c).2).2 := by
  obtain ⟨ha1, ha2⟩ := RepLayout.reachable_dense w a ha (by omega)
  obtain ⟨hb1, hb2⟩ := RepLayout.reachable_dense w b hb (by omega)
  have hla : (RpcBindingMap.bindings a.rpc_map_).length = a.rpc_map_.length := by
    simp [RpcBindingMap.bindings]
  have hlb : (RpcBindingMap.bindings b.rpc_map_).length = b.rpc_map_.length := by
    simp [RpcBindingMap.bindings]
  have hlc : (RpcBindingMap.bindings c.rpc_map_).length = c.rpc_map_.length := by
    simp [RpcBindingMap.bindings]
  have hab : RepLayout.addAssign w a b =
      { property_list_ := a.property_list_ ++ b.property_list_,
        rpc_map_ := List.enumFrom 0
          (RpcBindingMap.bindings a.rpc_map_ ++ RpcBindingMap.bindings b.rpc_map_),
        next_rpc_id_ := (a.rpc_map_.length + b.rpc_map_.length) % 2 ^ w } := by
    rw [RepLayout.addAssign_dense w a b (RpcBindingMap.bindings a.rpc_map_) ha1
      (by rw [ha2, hla, Nat.mod_eq_of_lt (by omega)]) (by omega), hla]
  have hbc : RepLayout.addAssign w b c =
      { property_list_ := b.property_list_ ++ c.property_list_,
        rpc_map_ := List.enumFrom 0
          (RpcBindingMap.bindings b.rpc_map_ ++ RpcBindingMap.bindings c.rpc_map_),
        next_rpc_id_ := (b.rpc_map_.length + c.rpc_map_.length) % 2 ^ w } := by
    rw [RepLayout.addAssign_dense w b c (RpcBindingMap.bindings b.rpc_map_) hb1
      (by rw [hb2, hlb, Nat.mod_eq_of_lt (by omega)]) (by omega), hlb]
  rw [RepLayout.add_snd, RepLayout.add_snd, RepLayout.add_snd, RepLayout.add_snd, hab, hbc]
  rw [RepLayout.addAssign_dense w _ c
      (RpcBindingMap.bindings a.rpc_map_ ++ RpcBindingMap.bindings b.rpc_map_) rfl
      (by simp only [List.length_append, hla, hlb])
      (by simp only [List.length_append, hla, hlb]; omega)]
  rw [RepLayout.addAssign_dense w a _ (RpcBindingMap.bindings a.rpc_map_) ha1
      (by rw [ha2, hla, Nat.mod_eq_of_lt (by omega)])
      (by simp only [List.enumFrom_length, List.length_append, hla, hlb, hlc]; omega)]
  simp only [List.length_append, List.enumFrom_length, RpcBindingMap.bindings,
    List.enumFrom_map_snd, List.append_assoc, Nat.add_assoc, List.length_map]

/-- C3 (witness): three layouts of one, two and one bindings at `w = 16`. -/
theorem C3_add_assoc_witness :
    (RepLayout.ofLists 16 [1] [20]).rpc_map_.length
      + (RepLayout.ofLists 16 [2] [21, 22]).rpc_map_.length
      + (RepLayout.ofLists 16 [3] [23]).rpc_map_.length < 2 ^ 16 ∧
    (RepLayout.add 16
        (RepLayout.add 16 (RepLayout.ofLists 16 [1] [20]) (RepLayout.ofLists 16 [2] [21, 22])).2
        (RepLayout.ofLists 16 [3] [23])).2
      = (RepLayout.add 16 (RepLayout.ofLists 16 [1] [20])
        (RepLayout.add 16 (RepLayout.ofLists 16 [2] [21, 22])
          (RepLayout.ofLists 16 [3] [23])).2).2 :=
  ⟨by decide, C3_add_assoc 16 _ _ _ (.ofLists _ _) (.ofLists _ _) (by decide)⟩

/-- C3 (counterexample): with a 16-bit `RpcId`, let A be the empty layout, B be built from
`2 ^ 16` bindings and C from one binding. Then (A + B) + C has next id `1` and A + (B + C) has
next id `0`. -/
theorem C3_overflow_counterexample :
    (RepLayout.add 16
        (RepLayout.add 16 (RepLayout.new : RepLayout Nat Nat)
          (RepLayout.ofLists 16 [] (List.replicate (2 ^ 16) 0))).2
        (RepLayout.ofLists 16 [] [1])).2.next_rpc_id_ = 1 ∧
    (RepLayout.add 16 (RepLayout.new : RepLayout Nat Nat)
        (RepLayout.add 16 (RepLayout.ofLists 16 [] (List.replicate (2 ^ 16) 0))
          (RepLayout.ofLists 16 [] [1])).2).2.next_rpc_id_ = 0 := by
  have h := RepLayout.overflow_next 16 ([] : List Nat) [] (List.replicate (2 ^ 16) 0)
    (List.length_replicate _ _) 1
  exact ⟨h.1.trans (by decide), h.2⟩

/-- C4: for all layouts A and B the property list of A + B is the property list of A followed
by the property list of B, of length `|A.props| + |B.props|`, and the call leaves the left
operand as it was (property list, RPC map and next id). -/
theorem C4_add_property_list {P R : Type} (w : Nat) (a b : RepLayout P R) :
    (RepLayout.add w a b).2.property_list_ = a.property_list_ ++ b.property_list_ ∧
    (RepLayout.add w a b).2.property_list_.length
      = a.property_list_.length + b.property_list_.length ∧
    (RepLayout.add w a b).1.property_list_ = a.property_list_ ∧
    (RepLayout.add w a b).1.rpc_map_ = a.rpc_map_ ∧
    (RepLayout.add w a b).1.next_rpc_id_ = a.next_rpc_id_ := by
  have h : (RepLayout.add w a b).2.property_list_ = a.property_list_ ++ b.property_list_ := by
    rw [RepLayout.add_snd, RepLayout.addAssign_property_list]
  exact ⟨h, by rw [h, List.length_append], rfl, rfl, rfl⟩

/-! ## Serialisation -/

namespace NetData

variable {R V : Type}

theorem serialiseLoop_eq (props : List (RepProperty V)) (out : OutputStream) :
    serialiseLoop props out = out ++ (props.map (fun p => p.encode p.value)).flatten := by
  induction props generalizing out with
  | nil => simp [serialiseLoop]
  | cons p props ih =>
    simp [serialiseLoop, ih, RepProperty.serialise, List.append_assoc]

theorem deserialiseLoop_serialiseLoop (ss rs : List (RepProperty V))
    (hlaw : ∀ p ∈ ss, ∀ (v cur : V) (rest : InputStream),
      p.decode cur (p.encode v ++ rest) = .ok (v, rest))
    (hshape : List.Forall₂ (fun a b => a.encode = b.encode ∧ a.decode = b.decode) ss rs)
    (suffix : InputStream) :
    ∃ rs', deserialiseLoop rs (serialiseLoop ss [] ++ suffix) = .ok (rs', suffix) ∧
      rs'.map (fun p => p.value) = ss.map (fun p => p.value) := by
  induction hshape with
  | nil => exact ⟨[], by simp [deserialiseLoop, serialiseLoop], rfl⟩
  | @cons a b ss rs hab _ ih =>
    have hd : b.decode b.value (a.encode a.value ++ (serialiseLoop ss [] ++ suffix))
        = .ok (a.value, serialiseLoop ss [] ++ suffix) := by
      rw [← hab.2]
      exact hlaw a (List.mem_cons_self _ _) _ _ _
    obtain ⟨rs', h1, h2⟩ := ih (fun p hp => hlaw p (List.mem_cons_of_mem _ hp))
    have hs : serialiseLoop (a :: ss) [] ++ suffix
        = a.encode a.value ++ (serialiseLoop ss [] ++ suffix) := by
      rw [serialiseLoop_eq, serialiseLoop_eq]
      simp [List.append_assoc]
    refine ⟨{ b with value := a.value } :: rs', ?_, ?_⟩
    · rw [hs]
      simp only [deserialiseLoop, RepProperty.deserialise, hd, h1]
    · simp [h2]

end NetData

/-- C5: when every property replicator of the sender reads back what it wrote, and the receiver
has a layout of the same shape (the same replicators, position by position, around possibly
different values), `deserialise` on the receiver of the bytes `serialise` produced on the
sender, followed by any suffix, completes and leaves the receiver with the property values of
the sender and the stream positioned at the suffix: it consumed exactly the bytes `serialise`
produced. -/
theorem C5_serialise_deserialise_round_trip {R V : Type}
    (sender receiver : NetData (RepProperty V) R) (suffix : InputStream)
    (hlaw : ∀ p ∈ sender.rep_layout_.property_list_, ∀ (v cur : V) (rest : InputStream),
      p.decode cur (p.encode v ++ rest) = .ok (v, rest))
    (hshape : List.Forall₂ (fun a b => a.encode = b.encode ∧ a.decode = b.decode)
      sender.rep_layout_.property_list_ receiver.rep_layout_.property_list_) :
    ∃ r, receiver.deserialise ((sender.serialise []).2 ++ suffix) = .ok r ∧
      r.1.rep_layout_.property_list_.map (fun p => p.value)
        = sender.rep_layout_.property_list_.map (fun p => p.value) ∧
      r.2 = suffix ∧
      ((sender.serialise []).2 ++ suffix).length - r.2.length
        = (sender.serialise []).2.length := by
  obtain ⟨rs', h1, h2⟩ := NetData.deserialiseLoop_serialiseLoop
    sender.rep_layout_.property_list_ receiver.rep_layout_.property_list_ hlaw hshape suffix
  refine ⟨({ receiver with
      rep_layout_ := { receiver.rep_layout_ with property_list_ := rs' } }, suffix), ?_, h2, rfl, ?_⟩
  · show NetData.deserialise receiver
      (NetData.serialiseLoop sender.rep_layout_.property_list_ [] ++ suffix) = _
    simp only [NetData.deserialise, h1]
  · rw [List.length_append, Nat.add_sub_cancel]

/-- C6: `NetData::serialise` appends to the output stream the bytes of every property
replicator, in the order of the property list: the stream after the call is the stream before
it followed by the concatenation of what each replicator writes; with an empty property list
the stream is left as it was, and the `NetData` itself is unchanged. -/
theorem C6_serialise_concat {R V : Type} (self : NetData (RepProperty V) R)
    (out : OutputStream) :
    (self.serialise out).2
      = out ++ (self.rep_layout_.property_list_.map (fun p => p.encode p.value)).flatten ∧
    (NetData.serialise
      ({ self with
          rep_layout_ := { self.rep_layout_ with property_list_ := ([] : List (RepProperty V)) } } :
        NetData (RepProperty V) R) out).2 = out ∧
    (self.serialise out).1 = self :=
  ⟨NetData.serialiseLoop_eq _ _, rfl, rfl⟩

/-- C5 (witness): two one-byte replicators holding 3 and 7 on the sender, 0 and 0 on the
receiver, and a stream continuing with the byte 9. -/
theorem C5_serialise_deserialise_round_trip_witness :
    ∃ r, NetData.deserialise
        (NetData.new ⟨[RepProperty.u8 0, RepProperty.u8 0], ([] : List (Nat × Nat)), 0⟩)
        ((NetData.serialise
          (NetData.new ⟨[RepProperty.u8 3, RepProperty.u8 7], ([] : List (Nat × Nat)), 0⟩) []).2
          ++ [9]) = .ok r ∧
      r.1.rep_layout_.property_list_.map (fun p => p.value) = [3, 7] ∧ r.2 = [9] :=
  have h := C5_serialise_deserialise_round_trip
    (NetData.new ⟨[RepProperty.u8 3, RepProperty.u8 7], ([] : List (Nat × Nat)), 0⟩)
    (NetData.new ⟨[RepProperty.u8 0, RepProperty.u8 0], ([] : List (Nat × Nat)), 0⟩) [9]
    (by
      intro p hp v cur rest
      simp only [NetData.new, List.mem_cons, List.mem_singleton, List.not_mem_nil, or_false] at hp
      rcases hp with rfl | rfl <;> rfl)
    (List.Forall₂.cons ⟨rfl, rfl⟩ (List.Forall₂.cons ⟨rfl, rfl⟩ List.Forall₂.nil))
  h.elim (fun r hr => ⟨r, hr.1, hr.2.1, hr.2.2.1⟩)

/-! ## RPC dispatch -/

/-- C7: on a `NetData` bound to an entity of the authority process (`isServer()` is true),
`sendRpc(id, type, payload)` completes, for every RPC type; it enters
`NetData::receiveRpc` exactly once, with the same id and payload, makes no call to the
transport, and what it does after its entry is exactly what `receiveRpc(id, payload)` does. -/
theorem C7_sendRpc_authority_local {P R : Type} (self : NetData P R) (entity : Entity)
    (rpc_id : Nat) (type : RpcType) (payload : List Byte)
    (hbound : self.entity_ = some entity) (hserver : entity.isServer = true) :
    ∃ t, self.receiveRpc rpc_id payload = .ok (self, t) ∧
      self.sendRpc rpc_id type payload
        = .ok (self, Call.NetData_sendRpc rpc_id type payload :: t) ∧
      (Call.NetData_sendRpc rpc_id type payload :: t).filter Call.isNetDataReceiveRpc
        = [Call.NetData_receiveRpc rpc_id payload] ∧
      (Call.NetData_sendRpc rpc_id type payload :: t).filter Call.isNetworkingSendRpc = [] := by
  cases hfind : RpcBindingMap.find self.rep_layout_.rpc_map_ rpc_id with
  | none =>
    refine ⟨[Call.NetData_receiveRpc rpc_id payload,
      Call.Logger_warn "Received unregistered RPC with ID %s, ignoring." [rpc_id]], ?_, ?_, ?_, ?_⟩
    · simp [NetData.receiveRpc, hfind, hbound]
    · simp [NetData.sendRpc, NetData.receiveRpc, hfind, hbound, hserver]
    · simp [List.filter, Call.isNetDataReceiveRpc]
    · simp [List.filter, Call.isNetworkingSendRpc]
  | some binding =>
    refine ⟨[Call.NetData_receiveRpc rpc_id payload,
      Call.RpcBinding_receiveRpc binding payload], ?_, ?_, ?_, ?_⟩
    · simp [NetData.receiveRpc, hfind]
    · simp [NetData.sendRpc, NetData.receiveRpc, hfind, hbound, hserver]
    · simp [List.filter, Call.isNetDataReceiveRpc]
    · simp [List.filter, Call.isNetworkingSendRpc]

/-- C7 (witness): a Server RPC with id 1 on the authority, on a layout of three bindings. -/
theorem C7_sendRpc_authority_local_witness :
    ∃ t, NetData.receiveRpc
        (⟨some ⟨7, true⟩, RepLayout.ofLists 16 ([] : List Nat) [100, 101, 102],
          NetRole.Authority, NetRole.None⟩ : NetData Nat Nat) 1 [5]
        = .ok (⟨some ⟨7, true⟩, RepLayout.ofLists 16 ([] : List Nat) [100, 101, 102],
          NetRole.Authority, NetRole.None⟩, t) ∧
      NetData.sendRpc
        (⟨some ⟨7, true⟩, RepLayout.ofLists 16 ([] : List Nat) [100, 101, 102],
          NetRole.Authority, NetRole.None⟩ : NetData Nat Nat) 1 RpcType.Server [5]
        = .ok (⟨some ⟨7, true⟩, RepLayout.ofLists 16 ([] : List Nat) [100, 101, 102],
          NetRole.Authority, NetRole.None⟩, Call.NetData_sendRpc 1 RpcType.Server [5] :: t) ∧
      (Call.NetData_sendRpc 1 RpcType.Server [5] :: t).filter Call.isNetDataReceiveRpc
        = [Call.NetData_receiveRpc 1 [5]] ∧
      (Call.NetData_sendRpc 1 RpcType.Server [5] :: t).filter Call.isNetworkingSendRpc = [] :=
  C7_sendRpc_authority_local
    (⟨some ⟨7, true⟩, RepLayout.ofLists 16 ([] : List Nat) [100, 101, 102],
      NetRole.Authority, NetRole.None⟩ : NetData Nat Nat) ⟨7, true⟩ 1 RpcType.Server [5] rfl rfl

/-- C8: on a `NetData` bound to an entity of a process that is not the authority (`isServer()`
is false), `sendRpc(id, type, payload)` completes with exactly one call to the transport, whose
arguments are the id of the owning entity, the same rpc id, type and payload; it does not enter
`receiveRpc` and invokes no binding. It holds for every RPC type, `Server` included. -/
theorem C8_sendRpc_remote_forward {P R : Type} (self : NetData P R) (entity : Entity)
    (rpc_id : Nat) (type : RpcType) (payload : List Byte)
    (hbound : self.entity_ = some entity) (hserver : entity.isServer = false) :
    self.sendRpc rpc_id type payload
      = .ok (self, [Call.NetData_sendRpc rpc_id type payload,
          Call.Networking_sendRpc entity.id rpc_id type payload]) ∧
    [Call.NetData_sendRpc rpc_id type payload,
        (Call.Networking_sendRpc entity.id rpc_id type payload : Call R)].filter
        Call.isNetworkingSendRpc
      = [Call.Networking_sendRpc entity.id rpc_id type payload] ∧
    [Call.NetData_sendRpc rpc_id type payload,
        (Call.Networking_sendRpc entity.id rpc_id type payload : Call R)].filter
        Call.isNetDataReceiveRpc = [] ∧
    [Call.NetData_sendRpc rpc_id type payload,
        (Call.Networking_sendRpc entity.id rpc_id type payload : Call R)].filter
        Call.isBindingReceiveRpc = [] := by
  refine ⟨?_, ?_, ?_, ?_⟩
  · simp [NetData.sendRpc, hbound, hserver]
  · simp [List.filter, Call.isNetworkingSendRpc]
  · simp [List.filter, Call.isNetDataReceiveRpc]
  · simp [List.filter, Call.isBindingReceiveRpc]

/-- C8 (witness): a Server RPC with id 1 on a client, on a layout of three bindings. -/
theorem C8_sendRpc_remote_forward_witness :
    NetData.sendRpc
      (⟨some ⟨7, false⟩, RepLayout.ofLists 16 ([] : List Nat) [100, 101, 102],
        NetRole.AuthoritativeProxy, NetRole.None⟩ : NetData Nat Nat) 1 RpcType.Server [5]
      = .ok (⟨some ⟨7, false⟩, RepLayout.ofLists 16 ([] : List Nat) [100, 101, 102],
          NetRole.AuthoritativeProxy, NetRole.None⟩,
        [Call.NetData_sendRpc 1 RpcType.Server [5],
          Call.Networking_sendRpc 7 1 RpcType.Server [5]]) :=
  (C8_sendRpc_remote_forward
    (⟨some ⟨7, false⟩, RepLayout.ofLists 16 ([] : List Nat) [100, 101, 102],
      NetRole.AuthoritativeProxy, NetRole.None⟩ : NetData Nat Nat) ⟨7, false⟩ 1 RpcType.Server
    [5] rfl rfl).1

/-- C9: on a sender bound by `onAddToEntity` to an entity with a `NetData` whose local role is
not `AuthoritativeProxy` (that is `None`, `Authority` or `SimulatedProxy`),
`sendClientRpcPayload` completes having logged exactly one warning and nothing else: it does not
enter `NetData::sendRpc`, makes no transport call and invokes no binding. -/
theorem C9_client_rpc_role_gate {P R : Type} (s0 : RpcSender P R) (entity : Entity)
    (net_data : NetData P R) (rpc_id : Nat) (payload : OutputBitStream)
    (hrole : net_data.role ≠ NetRole.AuthoritativeProxy) :
    ∃ t, (s0.onAddToEntity entity (some net_data) rpc_id).sendClientRpcPayload payload
        = .ok (net_data, t) ∧
      t = [Call.Logger_warn "Trying to send a client RPC from a non-authoritative proxy." []] ∧
      t.filter Call.isWarn
        = [Call.Logger_warn "Trying to send a client RPC from a non-authoritative proxy." []] ∧
      t.filter Call.isNetDataSendRpc = [] ∧
      t.filter Call.isNetworkingSendRpc = [] ∧
      t.filter Call.isBindingReceiveRpc = [] := by
  refine ⟨_, ?_, rfl, ?_, ?_, ?_, ?_⟩
  · simp [RpcSender.sendClientRpcPayload, RpcSender.onAddToEntity, hrole]
  · simp [List.filter, Call.isWarn]
  · simp [List.filter, Call.isNetDataSendRpc]
  · simp [List.filter, Call.isNetworkingSendRpc]
  · simp [List.filter, Call.isBindingReceiveRpc]

/-- C9 (witness): a client RPC sent with the local role `SimulatedProxy`. -/
theorem C9_client_rpc_role_gate_witness :
    ∃ t, (RpcSender.onAddToEntity RpcSender.new ⟨7, false⟩
          (some (⟨some ⟨7, false⟩, RepLayout.ofLists 16 ([] : List Nat) [100, 101, 102],
            NetRole.SimulatedProxy, NetRole.Authority⟩ : NetData Nat Nat)) 1).sendClientRpcPayload
          ⟨[5]⟩
        = .ok (⟨some ⟨7, false⟩, RepLayout.ofLists 16 ([] : List Nat) [100, 101, 102],
            NetRole.SimulatedProxy, NetRole.Authority⟩, t) ∧
      t = [Call.Logger_warn "Trying to send a client RPC from a non-authoritative proxy." []] :=
  have h := C9_client_rpc_role_gate (RpcSender.new) ⟨7, false⟩
    (⟨some ⟨7, false⟩, RepLayout.ofLists 16 ([] : List Nat) [100, 101, 102],
      NetRole.SimulatedProxy, NetRole.Authority⟩ : NetData Nat Nat) 1 ⟨[5]⟩ (by decide)
  h.elim (fun t ht => ⟨t, ht.1, ht.2.1⟩)

/-- C10: on a sender bound by `onAddToEntity` to an entity whose `NetData` is bound to it and
has the local role `AuthoritativeProxy`, `sendClientRpcPayload(payload)` does exactly what
`NetData::sendRpc(rpc_id_, Client, payload.vec_data())` does (the sender logs nothing of its
own), and that call completes: `NetData::sendRpc` is entered exactly once, with the rpc id of
the sender, `Client` and the bytes of the payload, and it makes exactly one call onwards, a
local `receiveRpc` on the authority process and a transport send otherwise. The only warning
the trace can hold is that of `receiveRpc` for an id absent from the RPC map. -/
theorem C10_client_rpc_forward {P R : Type} (s0 : RpcSender P R) (entity : Entity)
    (net_data : NetData P R) (rpc_id : Nat) (payload : OutputBitStream)
    (hrole : net_data.role = NetRole.AuthoritativeProxy)
    (hbound : net_data.entity_ = some entity) :
    (s0.onAddToEntity entity (some net_data) rpc_id).sendClientRpcPayload payload
      = net_data.sendRpc rpc_id RpcType.Client payload.vec_data ∧
    ∃ t, (s0.onAddToEntity entity (some net_data) rpc_id).sendClientRpcPayload payload
        = .ok (net_data, t) ∧
      t.filter Call.isNetDataSendRpc
        = [Call.NetData_sendRpc rpc_id RpcType.Client payload.vec_data] ∧
      Call.Logger_warn "Trying to send a client RPC from a non-authoritative proxy." [] ∉ t ∧
      t.filter Call.isNetDataReceiveRpc
        = (if entity.isServer then [Call.NetData_receiveRpc rpc_id payload.vec_data] else []) ∧
      t.filter Call.isNetworkingSendRpc
        = (if entity.isServer then []
          else [Call.Networking_sendRpc entity.id rpc_id RpcType.Client payload.vec_data]) ∧
      t.filter Call.isWarn
        = (if entity.isServer
            && (RpcBindingMap.find net_data.rep_layout_.rpc_map_ rpc_id).isNone
          then [Call.Logger_warn "Received unregistered RPC with ID %s, ignoring." [rpc_id]]
          else []) := by
  have hfwd : (s0.onAddToEntity entity (some net_data) rpc_id).sendClientRpcPayload payload
      = net_data.sendRpc rpc_id RpcType.Client payload.vec_data := by
    simp [RpcSender.sendClientRpcPayload, RpcSender.onAddToEntity, hrole]
  refine ⟨hfwd, ?_⟩
  rw [hfwd]
  cases hs : entity.isServer with
  | false =>
    refine ⟨[Call.NetData_sendRpc rpc_id RpcType.Client payload.vec_data,
      Call.Networking_sendRpc entity.id rpc_id RpcType.Client payload.vec_data], ?_⟩
    simp [NetData.sendRpc, hbound, hs, List.filter, Call.isNetDataSendRpc,
      Call.isNetDataReceiveRpc, Call.isNetworkingSendRpc, Call.isWarn]
  | true =>
    cases hfind : RpcBindingMap.find net_data.rep_layout_.rpc_map_ rpc_id with
    | none =>
      refine ⟨[Call.NetData_sendRpc rpc_id RpcType.Client payload.vec_data,
        Call.NetData_receiveRpc rpc_id payload.vec_data,
        Call.Logger_warn "Received unregistered RPC with ID %s, ignoring." [rpc_id]], ?_⟩
      simp [NetData.sendRpc, NetData.receiveRpc, hbound, hs, hfind, List.filter,
        Call.isNetDataSendRpc, Call.isNetDataReceiveRpc, Call.isNetworkingSendRpc, Call.isWarn]
    | some binding =>
      refine ⟨[Call.NetData_sendRpc rpc_id RpcType.Client payload.vec_data,
        Call.NetData_receiveRpc rpc_id payload.vec_data,
        Call.RpcBinding_receiveRpc binding payload.vec_data], ?_⟩
      simp [NetData.sendRpc, NetData.receiveRpc, hbound, hs, hfind, List.filter,
        Call.isNetDataSendRpc, Call.isNetDataReceiveRpc, Call.isNetworkingSendRpc, Call.isWarn]

/-- C10 (witness): a client RPC sent with the local role `AuthoritativeProxy` on a process that
is not the authority. -/
theorem C10_client_rpc_forward_witness :
    (RpcSender.onAddToEntity RpcSender.new ⟨7, false⟩
        (some (⟨some ⟨7, false⟩, RepLayout.ofLists 16 ([] : List Nat) [100, 101, 102],
          NetRole.AuthoritativeProxy, NetRole.Authority⟩ : NetData Nat Nat)) 1).sendClientRpcPayload
        ⟨[5]⟩
      = NetData.sendRpc
        (⟨some ⟨7, false⟩, RepLayout.ofLists 16 ([] : List Nat) [100, 101, 102],
          NetRole.AuthoritativeProxy, NetRole.Authority⟩ : NetData Nat Nat) 1 RpcType.Client [5] :=
  (C10_client_rpc_forward (RpcSender.new) ⟨7, false⟩
    (⟨some ⟨7, false⟩, RepLayout.ofLists 16 ([] : List Nat) [100, 101, 102],
      NetRole.AuthoritativeProxy, NetRole.Authority⟩ : NetData Nat Nat) 1 ⟨[5]⟩ rfl rfl).1

/-- C11: on a sender bound by `onAddToEntity` to an entity whose `NetData` is bound to it,
`sendServerRpcPayload(payload)` does exactly what
`NetData::sendRpc(rpc_id_, Server, payload.vec_data())` does, whatever the local role is: the
call completes, `NetData::sendRpc` is entered exactly once with the rpc id of the sender,
`Server` and the bytes of the payload, the sender logs no warning of its own (the only warning
the trace can hold is that of `receiveRpc` for an id absent from the RPC map), and the calls
made are the same for every local role. -/
theorem C11_server_rpc_forward {P R : Type} (s0 : RpcSender P R) (entity : Entity)
    (net_data : NetData P R) (rpc_id : Nat) (payload : OutputBitStream)
    (hbound : net_data.entity_ = some entity) :
    (s0.onAddToEntity entity (some net_data) rpc_id).sendServerRpcPayload payload
      = net_data.sendRpc rpc_id RpcType.Server payload.vec_data ∧
    (∃ t, (s0.onAddToEntity entity (some net_data) rpc_id).sendServerRpcPayload payload
        = .ok (net_data, t) ∧
      t.filter Call.isNetDataSendRpc
        = [Call.NetData_sendRpc rpc_id RpcType.Server payload.vec_data] ∧
      Call.Logger_warn "Trying to send a client RPC from a non-authoritative proxy." [] ∉ t ∧
      t.filter Call.isWarn
        = (if entity.isServer
            && (RpcBindingMap.find net_data.rep_layout_.rpc_map_ rpc_id).isNone
          then [Call.Logger_warn "Received unregistered RPC with ID %s, ignoring." [rpc_id]]
          else [])) ∧
    (∀ role : NetRole,
      ((s0.onAddToEntity entity (some { net_data with role_ := role })
          rpc_id).sendServerRpcPayload payload).map Prod.snd
        = ((s0.onAddToEntity entity (some net_data) rpc_id).sendServerRpcPayload payload).map
          Prod.snd) := by
  refine ⟨rfl, ?_, ?_⟩
  · show ∃ t, net_data.sendRpc rpc_id RpcType.Server payload.vec_data = .ok (net_data, t) ∧ _
    cases hs : entity.isServer with
    | false =>
      refine ⟨[Call.NetData_sendRpc rpc_id RpcType.Server payload.vec_data,
        Call.Networking_sendRpc entity.id rpc_id RpcType.Server payload.vec_data], ?_⟩
      simp [NetData.sendRpc, hbound, hs, List.filter, Call.isNetDataSendRpc, Call.isWarn]
    | true =>
      cases hfind : RpcBindingMap.find net_data.rep_layout_.rpc_map_ rpc_id with
      | none =>
        refine ⟨[Call.NetData_sendRpc rpc_id RpcType.Server payload.vec_data,
          Call.NetData_receiveRpc rpc_id payload.vec_data,
          Call.Logger_warn "Received unregistered RPC with ID %s, ignoring." [rpc_id]], ?_⟩
        simp [NetData.sendRpc, NetData.receiveRpc, hbound, hs, hfind, List.filter,
          Call.isNetDataSendRpc, Call.isWarn]
      | some binding =>
        refine ⟨[Call.NetData_sendRpc rpc_id RpcType.Server payload.vec_data,
          Call.NetData_receiveRpc rpc_id payload.vec_data,
          Call.RpcBinding_receiveRpc binding payload.vec_data], ?_⟩
        simp [NetData.sendRpc, NetData.receiveRpc, hbound, hs, hfind, List.filter,
          Call.isNetDataSendRpc, Call.isWarn]
  · intro role
    show (NetData.sendRpc { net_data with role_ := role } rpc_id RpcType.Server
        payload.vec_data).map Prod.snd
      = (net_data.sendRpc rpc_id RpcType.Server payload.vec_data).map Prod.snd
    cases hs : entity.isServer with
    | false => simp [NetData.sendRpc, hbound, hs, Except.map]
    | true =>
      cases hfind : RpcBindingMap.find net_data.rep_layout_.rpc_map_ rpc_id with
      | none => simp [NetData.sendRpc, NetData.receiveRpc, hbound, hs, hfind, Except.map]
      | some binding => simp [NetData.sendRpc, NetData.receiveRpc, hbound, hs, hfind, Except.map]

/-- C11 (witness): a server RPC sent with the local role `SimulatedProxy` on a process that is
not the authority. -/
theorem C11_server_rpc_forward_witness :
    (RpcSender.onAddToEntity RpcSender.new ⟨7, false⟩
        (some (⟨some ⟨7, false⟩, RepLayout.ofLists 16 ([] : List Nat) [100, 101, 102],
          NetRole.SimulatedProxy, NetRole.Authority⟩ : NetData Nat Nat)) 1).sendServerRpcPayload
        ⟨[5]⟩
      = NetData.sendRpc
        (⟨some ⟨7, false⟩, RepLayout.ofLists 16 ([] : List Nat) [100, 101, 102],
          NetRole.SimulatedProxy, NetRole.Authority⟩ : NetData Nat Nat) 1 RpcType.Server [5] :=
  (C11_server_rpc_forward (RpcSender.new) ⟨7, false⟩
    (⟨some ⟨7, false⟩, RepLayout.ofLists 16 ([] : List Nat) [100, 101, 102],
      NetRole.SimulatedProxy, NetRole.Authority⟩ : NetData Nat Nat) 1 ⟨[5]⟩ rfl).1

/-- C12: for an rpc id that is a key of the RPC map, `NetData::receiveRpc(id, payload)`
completes having invoked `receiveRpc(payload)` on the binding stored under that id, once, on no
other binding, and without a warning; the `NetData` is left as it was. -/
theorem C12_receiveRpc_registered {P R : Type} (self : NetData P R) (rpc_id : Nat)
    (payload : List Byte) (binding : R)
    (hfind : RpcBindingMap.find self.rep_layout_.rpc_map_ rpc_id = some binding) :
    ∃ t, self.receiveRpc rpc_id payload = .ok (self, t) ∧
      t.filter Call.isBindingReceiveRpc = [Call.RpcBinding_receiveRpc binding payload] ∧
      t.filter Call.isWarn = [] ∧
      t.filter Call.isNetworkingSendRpc = [] := by
  refine ⟨[Call.NetData_receiveRpc rpc_id payload,
    Call.RpcBinding_receiveRpc binding payload], ?_⟩
  simp [NetData.receiveRpc, hfind, List.filter, Call.isBindingReceiveRpc, Call.isWarn,
    Call.isNetworkingSendRpc]

/-- C12 (witness): id 1 on a layout of three bindings invokes the binding `101`. -/
theorem C12_receiveRpc_registered_witness :
    ∃ t, NetData.receiveRpc
        (NetData.new (RepLayout.ofLists 16 ([] : List Nat) [100, 101, 102])) 1 [5]
        = .ok (NetData.new (RepLayout.ofLists 16 ([] : List Nat) [100, 101, 102]), t) ∧
      t.filter Call.isBindingReceiveRpc = [Call.RpcBinding_receiveRpc 101 [5]] ∧
      t.filter Call.isWarn = [] ∧
      t.filter Call.isNetworkingSendRpc = [] :=
  C12_receiveRpc_registered
    (NetData.new (RepLayout.ofLists 16 ([] : List Nat) [100, 101, 102])) 1 [5] 101 (by decide)

/-- C13: for an rpc id that is not a key of the RPC map, `NetData::receiveRpc` on a `NetData`
bound to an entity completes having logged exactly one warning and invoked no binding; the
`NetData` (property values, layout, role and remote role) is left as it was. -/
theorem C13_receiveRpc_unregistered {P R : Type} (self : NetData P R) (entity : Entity)
    (rpc_id : Nat) (payload : List Byte) (hbound : self.entity_ = some entity)
    (hfind : RpcBindingMap.find self.rep_layout_.rpc_map_ rpc_id = none) :
    ∃ t, self.receiveRpc rpc_id payload = .ok (self, t) ∧
      t.filter Call.isWarn
        = [Call.Logger_warn "Received unregistered RPC with ID %s, ignoring." [rpc_id]] ∧
      t.filter Call.isBindingReceiveRpc = [] ∧
      t.filter Call.isNetworkingSendRpc = [] := by
  refine ⟨[Call.NetData_receiveRpc rpc_id payload,
    Call.Logger_warn "Received unregistered RPC with ID %s, ignoring." [rpc_id]], ?_⟩
  simp [NetData.receiveRpc, hfind, hbound, List.filter, Call.isBindingReceiveRpc, Call.isWarn,
    Call.isNetworkingSendRpc]

/-- C13 (witness): id 999 on a bound layout of three bindings. -/
theorem C13_receiveRpc_unregistered_witness :
    ∃ t, NetData.receiveRpc
        (⟨some ⟨7, true⟩, RepLayout.ofLists 16 ([] : List Nat) [100, 101, 102],
          NetRole.Authority, NetRole.None⟩ : NetData Nat Nat) 999 [5]
        = .ok (⟨some ⟨7, true⟩, RepLayout.ofLists 16 ([] : List Nat) [100, 101, 102],
          NetRole.Authority, NetRole.None⟩, t) ∧
      t.filter Call.isWarn
        = [Call.Logger_warn "Received unregistered RPC with ID %s, ignoring." [999]] ∧
      t.filter Call.isBindingReceiveRpc = [] ∧
      t.filter Call.isNetworkingSendRpc = [] :=
  C13_receiveRpc_unregistered
    (⟨some ⟨7, true⟩, RepLayout.ofLists 16 ([] : List Nat) [100, 101, 102],
      NetRole.Authority, NetRole.None⟩ : NetData Nat Nat) ⟨7, true⟩ 999 [5] rfl (by decide)

/-- C14 (as amended): on a `NetData` that is attached to an entity (`entity_` is not null),
`receiveRpc` completes without a fault for every rpc id, in the RPC map or not, and leaves the
`NetData` as it was. -/
theorem C14_receiveRpc_completes_when_attached {P R : Type} (self : NetData P R)
    (entity : Entity) (rpc_id : Nat) (payload : List Byte)
    (hbound : self.entity_ = some entity) :
    ∃ t, self.receiveRpc rpc_id payload = .ok (self, t) := by
  cases hfind : RpcBindingMap.find self.rep_layout_.rpc_map_ rpc_id with
  | none =>
    exact ⟨[Call.NetData_receiveRpc rpc_id payload,
      Call.Logger_warn "Received unregistered RPC with ID %s, ignoring." [rpc_id]],
      by simp [NetData.receiveRpc, hfind, hbound]⟩
  | some binding =>
    exact ⟨[Call.NetData_receiveRpc rpc_id payload,
      Call.RpcBinding_receiveRpc binding payload], by simp [NetData.receiveRpc, hfind]⟩

/-- C14 (witness): id 999 on a layout of three bindings attached to an entity. -/
theorem C14_receiveRpc_completes_when_attached_witness :
    ∃ t, NetData.receiveRpc
        (⟨some ⟨7, false⟩, RepLayout.ofLists 16 ([] : List Nat) [100, 101, 102],
          NetRole.SimulatedProxy, NetRole.None⟩ : NetData Nat Nat) 999 [5]
        = .ok (⟨some ⟨7, false⟩, RepLayout.ofLists 16 ([] : List Nat) [100, 101, 102],
          NetRole.SimulatedProxy, NetRole.None⟩, t) :=
  C14_receiveRpc_completes_when_attached
    (⟨some ⟨7, false⟩, RepLayout.ofLists 16 ([] : List Nat) [100, 101, 102],
      NetRole.SimulatedProxy, NetRole.None⟩ : NetData Nat Nat) ⟨7, false⟩ 999 [5] rfl

/-- C14 (counterexample): a `NetData` fresh from its constructor, on a layout of three
bindings, has a null `entity_`; `receiveRpc(999, payload)` dereferences it to reach the logger
and faults. -/
theorem C14_unattached_counterexample :
    (NetData.new (RepLayout.ofLists 16 ([] : List Nat) [100, 101, 102])).entity_ = none ∧
    RpcBindingMap.find
      (NetData.new (RepLayout.ofLists 16 ([] : List Nat) [100, 101, 102])).rep_layout_.rpc_map_
      999 = none ∧
    NetData.receiveRpc (NetData.new (RepLayout.ofLists 16 ([] : List Nat) [100, 101, 102]))
      999 [5] = .error Fault.nullDeref :=
  ⟨rfl, by decide, rfl⟩

/-- C15 (as amended): neither send path consults the short-circuit predicate; local or remote
is decided by the `isServer()` test of `NetData::sendRpc`. Whenever `shouldShortCircuit(type)`
is true on a bound sender (`Server` with role `Authority`, `Client` with role
`AuthoritativeProxy`), the matching send path completes; when the process is the authority it
enters `receiveRpc` once and makes no transport call, and when it is not it makes exactly one
transport call and does not enter `receiveRpc`. -/
theorem C15_send_paths_follow_isServer {P R : Type} (s0 : RpcSender P R) (entity : Entity)
    (net_data : NetData P R) (rpc_id : Nat) (type : RpcType) (payload : OutputBitStream)
    (hbound : net_data.entity_ = some entity)
    (hshort : (s0.onAddToEntity entity (some net_data) rpc_id).shouldShortCircuit type
      = .ok true) :
    ∃ t, (match type with
        | RpcType.Server =>
          (s0.onAddToEntity entity (some net_data) rpc_id).sendServerRpcPayload payload
        | RpcType.Client =>
          (s0.onAddToEntity entity (some net_data) rpc_id).sendClientRpcPayload payload)
        = .ok (net_data, t) ∧
      t.filter Call.isNetworkingSendRpc
        = (if entity.isServer then []
          else [Call.Networking_sendRpc entity.id rpc_id type payload.vec_data]) ∧
      t.filter Call.isNetDataReceiveRpc
        = (if entity.isServer then [Call.NetData_receiveRpc rpc_id payload.vec_data]
          else []) := by
  have hsend : ∀ ty : RpcType, ∃ t,
      net_data.sendRpc rpc_id ty payload.vec_data = .ok (net_data, t) ∧
      t.filter Call.isNetworkingSendRpc
        = (if entity.isServer then []
          else [Call.Networking_sendRpc entity.id rpc_id ty payload.vec_data]) ∧
      t.filter Call.isNetDataReceiveRpc
        = (if entity.isServer then [Call.NetData_receiveRpc rpc_id payload.vec_data]
          else []) := by
    intro ty
    cases hs : entity.isServer with
    | false =>
      refine ⟨[Call.NetData_sendRpc rpc_id ty payload.vec_data,
        Call.Networking_sendRpc entity.id rpc_id ty payload.vec_data], ?_⟩
      simp [NetData.sendRpc, hbound, hs, List.filter, Call.isNetworkingSendRpc,
        Call.isNetDataReceiveRpc]
    | true =>
      cases hfind : RpcBindingMap.find net_data.rep_layout_.rpc_map_ rpc_id with
      | none =>
        refine ⟨[Call.NetData_sendRpc rpc_id ty payload.vec_data,
          Call.NetData_receiveRpc rpc_id payload.vec_data,
          Call.Logger_warn "Received unregistered RPC with ID %s, ignoring." [rpc_id]], ?_⟩
        simp [NetData.sendRpc, NetData.receiveRpc, hbound, hs, hfind, List.filter,
          Call.isNetworkingSendRpc, Call.isNetDataReceiveRpc]
      | some binding =>
        refine ⟨[Call.NetData_sendRpc rpc_id ty payload.vec_data,
          Call.NetData_receiveRpc rpc_id payload.vec_data,
          Call.RpcBinding_receiveRpc binding payload.vec_data], ?_⟩
        simp [NetData.sendRpc, NetData.receiveRpc, hbound, hs, hfind, List.filter,
          Call.isNetworkingSendRpc, Call.isNetDataReceiveRpc]
  cases type with
  | Server => exact hsend RpcType.Server
  | Client =>
    have hrole : net_data.role = NetRole.AuthoritativeProxy := by
      cases hr : net_data.role <;>
        simp [RpcSender.shouldShortCircuit, RpcSender.onAddToEntity, hr] at hshort
      rfl
    have hfwd : (s0.onAddToEntity entity (some net_data) rpc_id).sendClientRpcPayload payload
        = net_data.sendRpc rpc_id RpcType.Client payload.vec_data := by
      simp [RpcSender.sendClientRpcPayload, RpcSender.onAddToEntity, hrole]
    show ∃ t, (s0.onAddToEntity entity (some net_data) rpc_id).sendClientRpcPayload payload
      = .ok (net_data, t) ∧ _
    rw [hfwd]
    exact hsend RpcType.Client

/-- C15 (witness): a client RPC from a sender with role `AuthoritativeProxy` on a process that
is not the authority: the predicate is true and the RPC goes to the transport. -/
theorem C15_send_paths_follow_isServer_witness :
    ∃ t, RpcSender.sendClientRpcPayload
        (RpcSender.onAddToEntity (RpcSender.new) ⟨7, false⟩
          (some (⟨some ⟨7, false⟩, RepLayout.ofLists 16 ([] : List Nat) [100, 101, 102],
            NetRole.AuthoritativeProxy, NetRole.Authority⟩ : NetData Nat Nat)) 1) ⟨[5]⟩
        = .ok (⟨some ⟨7, false⟩, RepLayout.ofLists 16 ([] : List Nat) [100, 101, 102],
            NetRole.AuthoritativeProxy, NetRole.Authority⟩, t) ∧
      t.filter Call.isNetworkingSendRpc = [Call.Networking_sendRpc 7 1 RpcType.Client [5]] ∧
      t.filter Call.isNetDataReceiveRpc = [] :=
  C15_send_paths_follow_isServer (RpcSender.new) ⟨7, false⟩
    (⟨some ⟨7, false⟩, RepLayout.ofLists 16 ([] : List Nat) [100, 101, 102],
      NetRole.AuthoritativeProxy, NetRole.Authority⟩ : NetData Nat Nat) 1 RpcType.Client ⟨[5]⟩
    rfl rfl

/-- C15 (counterexample): on a process that is not the authority, a sender whose local role is
`AuthoritativeProxy` has `shouldShortCircuit(Client)` true and yet `sendClientRpcPayload` hands
the RPC to the transport; likewise a sender whose local role is `Authority` has
`shouldShortCircuit(Server)` true and `sendServerRpcPayload` hands the RPC to the transport. -/
theorem C15_short_circuit_counterexample :
    RpcSender.shouldShortCircuit
        (RpcSender.onAddToEntity (RpcSender.new) ⟨7, false⟩
          (some (⟨some ⟨7, false⟩, RepLayout.ofLists 16 ([] : List Nat) [100, 101, 102],
            NetRole.AuthoritativeProxy, NetRole.Authority⟩ : NetData Nat Nat)) 1)
        RpcType.Client = .ok true ∧
    RpcSender.sendClientRpcPayload
        (RpcSender.onAddToEntity (RpcSender.new) ⟨7, false⟩
          (some (⟨some ⟨7, false⟩, RepLayout.ofLists 16 ([] : List Nat) [100, 101, 102],
            NetRole.AuthoritativeProxy, NetRole.Authority⟩ : NetData Nat Nat)) 1) ⟨[5]⟩
      = .ok (⟨some ⟨7, false⟩, RepLayout.ofLists 16 ([] : List Nat) [100, 101, 102],
            NetRole.AuthoritativeProxy, NetRole.Authority⟩,
          [Call.NetData_sendRpc 1 RpcType.Client [5],
            Call.Networking_sendRpc 7 1 RpcType.Client [5]]) ∧
    RpcSender.shouldShortCircuit
        (RpcSender.onAddToEntity (RpcSender.new) ⟨7, false⟩
          (some (⟨some ⟨7, false⟩, RepLayout.ofLists 16 ([] : List Nat) [100, 101, 102],
            NetRole.Authority, NetRole.None⟩ : NetData Nat Nat)) 1)
        RpcType.Server = .ok true ∧
    RpcSender.sendServerRpcPayload
        (RpcSender.onAddToEntity (RpcSender.new) ⟨7, false⟩
          (some (⟨some ⟨7, false⟩, RepLayout.ofLists 16 ([] : List Nat) [100, 101, 102],
            NetRole.Authority, NetRole.None⟩ : NetData Nat Nat)) 1) ⟨[5]⟩
      = .ok (⟨some ⟨7, false⟩, RepLayout.ofLists 16 ([] : List Nat) [100, 101, 102],
            NetRole.Authority, NetRole.None⟩,
          [Call.NetData_sendRpc 1 RpcType.Server [5],
            Call.Networking_sendRpc 7 1 RpcType.Server [5]]) :=
  ⟨rfl, rfl, rfl, rfl⟩

namespace RepProperty

theorem u8Checked_readsChecked (value : Byte) : (RepProperty.u8Checked value).ReadsChecked 1 := by
  refine ⟨fun _ => rfl, ?_, ?_⟩
  · intro cur inp h
    cases inp with
    | nil => rfl
    | cons b rest => simp at h
  · intro cur v inp rest h
    cases inp with
    | nil => simp [RepProperty.u8Checked] at h
    | cons b tl =>
      simp only [RepProperty.u8Checked, Except.ok.injEq, Prod.mk.injEq] at h
      rw [← h.2]
      rfl

end RepProperty

namespace NetData

variable {R V : Type}

theorem serialiseLoop_cons_length (p : RepProperty V) (rest : List (RepProperty V)) :
    (serialiseLoop (p :: rest) []).length
      = (p.encode p.value).length + (serialiseLoop rest []).length := by
  rw [serialiseLoop_eq, serialiseLoop_eq]
  simp

/-- With replicators whose reads are checked, an input shorter than what `serialise` produces
stops the loop of `deserialise` with the fault of a replicator, after reads that stayed within
the input. -/
theorem deserialiseLoop_short (props : List (RepProperty V)) (inp : InputStream)
    (hchecked : ∀ p ∈ props, ∃ width, p.ReadsChecked width)
    (hshort : inp.length < (serialiseLoop props []).length) :
    ∃ (pre : List (RepProperty V)) (p : RepProperty V) (post pre' : List (RepProperty V))
      (k : Nat) (f : Fault),
      props = pre ++ p :: post ∧
      deserialiseLoop pre inp = .ok (pre', inp.drop k) ∧
      k ≤ inp.length ∧
      p.decode p.value (inp.drop k) = .error f ∧
      deserialiseLoop props inp = .error f := by
  induction props generalizing inp with
  | nil => simp [serialiseLoop] at hshort
  | cons q rest ih =>
    obtain ⟨w, hw1, hw2, hw3⟩ := hchecked q (List.mem_cons_self _ _)
    rw [serialiseLoop_cons_length, hw1] at hshort
    cases hq : q.decode q.value inp with
    | error f =>
      refine ⟨[], q, rest, [], 0, f, rfl, rfl, Nat.zero_le _, hq, ?_⟩
      simp only [deserialiseLoop, RepProperty.deserialise, hq]
    | ok r =>
      have hlen : w ≤ inp.length := by
        by_contra hlt
        rw [hw2 q.value inp (by omega)] at hq
        simp at hq
      have hr : r.2 = inp.drop w := hw3 q.value r.1 inp r.2 hq
      have hshort2 : (inp.drop w).length < (serialiseLoop rest []).length := by
        rw [List.length_drop]
        omega
      obtain ⟨pre, p, post, pre', k, f, h1, h2, h3, h4, h5⟩ :=
        ih (inp.drop w) (fun p hp => hchecked p (List.mem_cons_of_mem _ hp)) hshort2
      rw [List.drop_drop] at h2 h4
      rw [List.length_drop] at h3
      refine ⟨q :: pre, p, post, { q with value := r.1 } :: pre', w + k, f, ?_, ?_, by omega,
        h4, ?_⟩
      · rw [h1]
        rfl
      · simp only [deserialiseLoop, RepProperty.deserialise, hq, hr, h2]
      · simp only [deserialiseLoop, RepProperty.deserialise, hq, hr, h5]

end NetData

/-- C16: with property replicators whose reads are checked as the spec has them (a replicator
reads the bytes it writes and its read fails when the input holds fewer), for every layout and
every input stream holding fewer bytes than `serialise` would produce for that layout,
`NetData::deserialise` ends in a failure that reaches its caller: the loop stops at the first
replicator whose read fails, with that failure, and the reads made before it took their bytes
from within the input (`k` bytes in all, `k` at most the length of the input). -/
theorem C16_deserialise_short_input {R V : Type} (self : NetData (RepProperty V) R)
    (inp : InputStream)
    (hchecked : ∀ p ∈ self.rep_layout_.property_list_, ∃ width, p.ReadsChecked width)
    (hshort : inp.length < (self.serialise []).2.length) :
    ∃ (pre : List (RepProperty V)) (p : RepProperty V) (post pre' : List (RepProperty V))
      (k : Nat) (f : Fault),
      self.rep_layout_.property_list_ = pre ++ p :: post ∧
      NetData.deserialiseLoop pre inp = .ok (pre', inp.drop k) ∧
      k ≤ inp.length ∧
      p.decode p.value (inp.drop k) = .error f ∧
      self.deserialise inp = .error f := by
  obtain ⟨pre, p, post, pre', k, f, h1, h2, h3, h4, h5⟩ :=
    NetData.deserialiseLoop_short self.rep_layout_.property_list_ inp hchecked hshort
  refine ⟨pre, p, post, pre', k, f, h1, h2, h3, h4, ?_⟩
  simp only [NetData.deserialise, h5]

/-- C16 (witness): three one-byte replicators with checked reads and an input of one byte:
`serialise` would produce three bytes, the first read takes the byte, the second fails, and
`deserialise` ends in a read fault. -/
theorem C16_deserialise_short_input_witness :
    ([9] : InputStream).length
      < (NetData.serialise
        (NetData.new ⟨[RepProperty.u8Checked 1, RepProperty.u8Checked 2,
          RepProperty.u8Checked 3], ([] : List (Nat × Nat)), 0⟩) []).2.length ∧
    NetData.deserialise
        (NetData.new ⟨[RepProperty.u8Checked 1, RepProperty.u8Checked 2,
          RepProperty.u8Checked 3], ([] : List (Nat × Nat)), 0⟩) [9]
      = .error Fault.readFault ∧
    ∃ (pre : List (RepProperty Byte)) (p : RepProperty Byte)
      (post pre' : List (RepProperty Byte)) (k : Nat) (f : Fault),
      [RepProperty.u8Checked 1, RepProperty.u8Checked 2, RepProperty.u8Checked 3]
        = pre ++ p :: post ∧
      NetData.deserialiseLoop pre [9] = .ok (pre', ([9] : InputStream).drop k) ∧
      k ≤ ([9] : InputStream).length ∧
      p.decode p.value (([9] : InputStream).drop k) = .error f ∧
      NetData.deserialise
          (NetData.new ⟨[RepProperty.u8Checked 1, RepProperty.u8Checked 2,
            RepProperty.u8Checked 3], ([] : List (Nat × Nat)), 0⟩) [9]
        = .error f :=
  ⟨by decide, rfl,
    C16_deserialise_short_input
      (NetData.new ⟨[RepProperty.u8Checked 1, RepProperty.u8Checked 2,
        RepProperty.u8Checked 3], ([] : List (Nat × Nat)), 0⟩) [9]
      (by
        intro p hp
        simp only [NetData.new, List.mem_cons, List.mem_singleton, List.not_mem_nil,
          or_false] at hp
        rcases hp with rfl | rfl | rfl <;> exact ⟨1, RepProperty.u8Checked_readsChecked _⟩)
      (by decide)⟩

/-! ## Binding a layout to an entity -/

namespace RpcBindingMap

variable {R : Type}

theorem mem_keys_assign (m : RpcBindingMap R) (k : Nat) (v : R) (x : Nat)
    (hx : x ∈ keys (assign m k v)) : x = k ∨ x ∈ keys m := by
  induction m with
  | nil =>
    simp only [assign, keys, List.map_cons, List.map_nil, List.mem_singleton] at hx
    exact Or.inl hx
  | cons p m ih =>
    obtain ⟨k', v'⟩ := p
    by_cases h1 : k < k'
    · simp only [assign, h1, if_true, keys, List.map_cons, List.mem_cons] at hx ⊢
      exact hx
    · by_cases h2 : k = k'
      · subst h2
        simp only [assign, Nat.lt_irrefl, if_true, if_false, keys, List.map_cons,
          List.mem_cons] at hx ⊢
        rcases hx with hx | hx
        · exact Or.inl hx
        · exact Or.inr (Or.inr hx)
      · simp only [assign, h1, h2, if_false, keys, List.map_cons, List.mem_cons] at hx ⊢
        rcases hx with hx | hx
        · exact Or.inr (Or.inl hx)
        · rcases ih hx with h | h
          · exact Or.inl h
          · exact Or.inr (Or.inr h)

/-- The statement `m[k] = v` keeps the keys in strictly ascending order. -/
theorem sorted_assign (m : RpcBindingMap R) (k : Nat) (v : R)
    (hs : (keys m).Pairwise (fun i j => i < j)) :
    (keys (assign m k v)).Pairwise (fun i j => i < j) := by
  induction m with
  | nil => simp [assign, keys]
  | cons p m ih =>
    obtain ⟨k', v'⟩ := p
    simp only [keys, List.map_cons, List.pairwise_cons] at hs
    obtain ⟨hhead, htail⟩ := hs
    by_cases h1 : k < k'
    · simp only [assign, h1, if_true, keys, List.map_cons, List.pairwise_cons, List.mem_cons]
      refine ⟨?_, hhead, htail⟩
      intro x hx
      rcases hx with hx | hx
      · omega
      · exact Nat.lt_trans h1 (hhead x hx)
    · by_cases h2 : k = k'
      · subst h2
        simp only [assign, h1, if_true, if_false, keys, List.map_cons, List.pairwise_cons]
        exact ⟨hhead, htail⟩
      · simp only [assign, h1, h2, if_false, keys, List.map_cons, List.pairwise_cons]
        refine ⟨?_, ih htail⟩
        intro x hx
        rcases mem_keys_assign m k v x hx with h | h
        · omega
        · exact hhead x h

/-- In a map with strictly ascending keys every entry is found under its key. -/
theorem find_of_mem (m : RpcBindingMap R) (hs : (keys m).Pairwise (fun i j => i < j))
    (k : Nat) (v : R) (hmem : (k, v) ∈ m) : find m k = some v := by
  induction m with
  | nil => simp at hmem
  | cons p m ih =>
    obtain ⟨k', v'⟩ := p
    simp only [keys, List.map_cons, List.pairwise_cons] at hs
    obtain ⟨hhead, htail⟩ := hs
    simp only [List.mem_cons, Prod.mk.injEq] at hmem
    rcases hmem with ⟨h1, h2⟩ | hmem
    · subst h1 h2
      simp [find]
    · have hlt : k' < k := hhead k (List.mem_map.mpr ⟨(k, v), hmem, rfl⟩)
      have hne : ¬ k = k' := by omega
      simp only [find, hne, if_false]
      exact ih htail hmem

end RpcBindingMap

namespace RepLayout

variable {P R : Type}

theorem foldl_bindNext_sorted (w : Nat) (vs : List R) (L : RepLayout P R)
    (hs : (RpcBindingMap.keys L.rpc_map_).Pairwise (fun i j => i < j)) :
    (RpcBindingMap.keys (vs.foldl (bindNext w) L).rpc_map_).Pairwise (fun i j => i < j) := by
  induction vs generalizing L with
  | nil => exact hs
  | cons v vs ih =>
    rw [List.foldl_cons]
    exact ih (bindNext w L v) (RpcBindingMap.sorted_assign _ _ _ hs)

/-- Every layout a program can build has the keys of its RPC map in strictly ascending order,
whether ids have wrapped or not. -/
theorem reachable_sorted (w : Nat) (L : RepLayout P R) (hr : Reachable w L) :
    (RpcBindingMap.keys L.rpc_map_).Pairwise (fun i j => i < j) := by
  induction hr with
  | new => exact List.Pairwise.nil
  | ofLists pl rl => exact foldl_bindNext_sorted w rl _ List.Pairwise.nil
  | add a b _ _ iha _ =>
    rw [add_snd, addAssign_eq_foldl]
    exact foldl_bindNext_sorted w _ _ iha
  | addAssign a b _ _ iha _ =>
    rw [addAssign_eq_foldl]
    exact foldl_bindNext_sorted w _ _ iha

theorem onAddToEntityProps_eq (propOnAdd : P → Entity → P) (entity : Entity) (ps : List P) :
    (onAddToEntityProps propOnAdd entity ps : List P × List (BindCall P R))
      = (ps.map (fun prop => propOnAdd prop entity),
        ps.map (fun prop => BindCall.RepProperty_onAddToEntity prop entity)) := by
  induction ps with
  | nil => rfl
  | cons prop rest ih => simp [onAddToEntityProps, ih]

theorem onAddToEntityRpcs_eq (rpcOnAdd : R → Entity → Nat → R) (entity : Entity)
    (m : RpcBindingMap R) :
    (onAddToEntityRpcs rpcOnAdd entity m : RpcBindingMap R × List (BindCall P R))
      = (m.map (fun rpc => (rpc.1, rpcOnAdd rpc.2 entity rpc.1)),
        m.map (fun rpc => BindCall.RpcBinding_onAddToEntity rpc.2 entity rpc.1)) := by
  induction m with
  | nil => rfl
  | cons rpc rest ih => simp [onAddToEntityRpcs, ih]

end RepLayout

/-- C17: on a `NetData` whose layout is one a program can build, `onAddToEntity(entity)`
completes, records the entity, and makes these calls in this order: `onAddToEntity(entity)` on
every property replicator once, in property-list order, then `onAddToEntity(entity, id)` on
every RPC binding once, in strictly ascending id order, each binding receiving the id under
which `find` returns it in the RPC map. -/
theorem C17_onAddToEntity_order {P R : Type} (w : Nat) (propOnAdd : P → Entity → P)
    (rpcOnAdd : R → Entity → Nat → R) (self : NetData P R) (entity : Entity)
    (hr : RepLayout.Reachable w self.rep_layout_) :
    ∃ nd t, NetData.onAddToEntity propOnAdd rpcOnAdd self (some entity) = .ok (nd, t) ∧
      nd.entity_ = some entity ∧
      t = self.rep_layout_.property_list_.map
            (fun prop => BindCall.RepProperty_onAddToEntity prop entity)
          ++ self.rep_layout_.rpc_map_.map
            (fun rpc => BindCall.RpcBinding_onAddToEntity rpc.2 entity rpc.1) ∧
      t.filterMap BindCall.rpcId? = RpcBindingMap.keys self.rep_layout_.rpc_map_ ∧
      (t.filterMap BindCall.rpcId?).Pairwise (fun i j => i < j) ∧
      (∀ binding rpc_id, BindCall.RpcBinding_onAddToEntity binding entity rpc_id ∈ t →
        RpcBindingMap.find self.rep_layout_.rpc_map_ rpc_id = some binding) := by
  have hs := RepLayout.reachable_sorted w self.rep_layout_ hr
  have hids : (self.rep_layout_.property_list_.map
        (fun prop => (BindCall.RepProperty_onAddToEntity prop entity : BindCall P R))
      ++ self.rep_layout_.rpc_map_.map
        (fun (rpc : Nat × R) => BindCall.RpcBinding_onAddToEntity rpc.2 entity rpc.1)).filterMap
        BindCall.rpcId?
      = RpcBindingMap.keys self.rep_layout_.rpc_map_ := by
    rw [List.filterMap_append, List.filterMap_map, List.filterMap_map]
    have h1 : List.filterMap (BindCall.rpcId? ∘ fun prop =>
        (BindCall.RepProperty_onAddToEntity prop entity : BindCall P R))
        self.rep_layout_.property_list_ = [] := by
      rw [List.filterMap_eq_nil_iff]
      intro a _
      rfl
    have h2 : List.filterMap (BindCall.rpcId? ∘ fun (rpc : Nat × R) =>
        (BindCall.RpcBinding_onAddToEntity rpc.2 entity rpc.1 : BindCall P R))
        self.rep_layout_.rpc_map_ = self.rep_layout_.rpc_map_.map Prod.fst := by
      rw [← List.filterMap_eq_map]
      rfl
    rw [h1, h2]
    rfl
  refine ⟨{ self with
      entity_ := some entity
      rep_layout_ := { self.rep_layout_ with
        property_list_ := self.rep_layout_.property_list_.map (fun prop => propOnAdd prop entity)
        rpc_map_ := self.rep_layout_.rpc_map_.map
          (fun rpc => (rpc.1, rpcOnAdd rpc.2 entity rpc.1)) } },
    _, ?_, rfl, rfl, hids, ?_, ?_⟩
  · simp only [NetData.onAddToEntity, RepLayout.onAddToEntity,
      RepLayout.onAddToEntityProps_eq, RepLayout.onAddToEntityRpcs_eq]
  · rw [hids]
    exact hs
  · intro binding rpc_id hmem
    simp only [List.mem_append, List.mem_map, BindCall.RpcBinding_onAddToEntity.injEq,
      and_false, exists_false, false_or, true_and, reduceCtorEq] at hmem
    obtain ⟨rpc, hrpc, h1, h2⟩ := hmem
    subst h1 h2
    exact RpcBindingMap.find_of_mem _ hs rpc.1 rpc.2 hrpc

/-- C17 (witness): a layout of two properties and three bindings composed from two layouts. -/
theorem C17_onAddToEntity_order_witness :
    ∃ nd t, NetData.onAddToEntity (fun (prop : Nat) _ => prop) (fun (rpc : Nat) _ _ => rpc)
        (NetData.new (RepLayout.add 16 (RepLayout.ofLists 16 [1] [100, 101])
          (RepLayout.ofLists 16 [2] [102])).2) (some ⟨7, false⟩) = .ok (nd, t) ∧
      nd.entity_ = some ⟨7, false⟩ ∧
      t = [BindCall.RepProperty_onAddToEntity 1 ⟨7, false⟩,
        BindCall.RepProperty_onAddToEntity 2 ⟨7, false⟩,
        BindCall.RpcBinding_onAddToEntity 100 ⟨7, false⟩ 0,
        BindCall.RpcBinding_onAddToEntity 101 ⟨7, false⟩ 1,
        BindCall.RpcBinding_onAddToEntity 102 ⟨7, false⟩ 2] :=
  have h := C17_onAddToEntity_order 16 (fun (prop : Nat) _ => prop) (fun (rpc : Nat) _ _ => rpc)
    (NetData.new (RepLayout.add 16 (RepLayout.ofLists 16 [1] [100, 101])
      (RepLayout.ofLists 16 [2] [102])).2) ⟨7, false⟩
    (.add _ _ (.ofLists _ _) (.ofLists _ _))
  h.elim (fun nd h1 => h1.elim (fun t ht => ⟨nd, t, ht.1, ht.2.1, ht.2.2.1⟩))

/-! ## Roles and preconditions of the sender -/

/-- C18: both roles are `None` after construction, and `NetData::onAddToEntity`, `serialise`,
`deserialise`, `sendRpc`, `receiveRpc` and the two send paths of `RpcSender` leave `role()` and
`remoteRole()` as they were: whenever one of them completes, the roles of the `NetData` after
the call are those before it. -/
theorem C18_roles_unchanged {R V : Type} (layout : RepLayout (RepProperty V) R)
    (propOnAdd : RepProperty V → Entity → RepProperty V) (rpcOnAdd : R → Entity → Nat → R)
    (self : NetData (RepProperty V) R) (parent : Option Entity) (out : OutputStream)
    (inp : InputStream) (rpc_id : Nat) (type : RpcType) (payload : List Byte)
    (s0 : RpcSender (RepProperty V) R) (entity : Entity) (bits : OutputBitStream) :
    (NetData.new layout).role = NetRole.None ∧
    (NetData.new layout).remoteRole = NetRole.None ∧
    (NetData.onAddToEntity propOnAdd rpcOnAdd self parent).map
        (fun r => (r.1.role, r.1.remoteRole))
      = (NetData.onAddToEntity propOnAdd rpcOnAdd self parent).map
        (fun _ => (self.role, self.remoteRole)) ∧
    ((self.serialise out).1.role, (self.serialise out).1.remoteRole)
      = (self.role, self.remoteRole) ∧
    (self.deserialise inp).map (fun r => (r.1.role, r.1.remoteRole))
      = (self.deserialise inp).map (fun _ => (self.role, self.remoteRole)) ∧
    (self.sendRpc rpc_id type payload).map (fun r => (r.1.role, r.1.remoteRole))
      = (self.sendRpc rpc_id type payload).map (fun _ => (self.role, self.remoteRole)) ∧
    (self.receiveRpc rpc_id payload).map (fun r => (r.1.role, r.1.remoteRole))
      = (self.receiveRpc rpc_id payload).map (fun _ => (self.role, self.remoteRole)) ∧
    ((s0.onAddToEntity entity (some self) rpc_id).sendServerRpcPayload bits).map
        (fun r => (r.1.role, r.1.remoteRole))
      = ((s0.onAddToEntity entity (some self) rpc_id).sendServerRpcPayload bits).map
        (fun _ => (self.role, self.remoteRole)) ∧
    ((s0.onAddToEntity entity (some self) rpc_id).sendClientRpcPayload bits).map
        (fun r => (r.1.role, r.1.remoteRole))
      = ((s0.onAddToEntity entity (some self) rpc_id).sendClientRpcPayload bits).map
        (fun _ => (self.role, self.remoteRole)) := by
  have hrecv : ∀ (id : Nat) (pl : List Byte),
      (self.receiveRpc id pl).map (fun r => (r.1.role, r.1.remoteRole))
        = (self.receiveRpc id pl).map (fun _ => (self.role, self.remoteRole)) := by
    intro id pl
    unfold NetData.receiveRpc
    cases RpcBindingMap.find self.rep_layout_.rpc_map_ id with
    | some b => rfl
    | none => cases self.entity_ <;> rfl
  have hsend : ∀ (id : Nat) (ty : RpcType) (pl : List Byte),
      (self.sendRpc id ty pl).map (fun r => (r.1.role, r.1.remoteRole))
        = (self.sendRpc id ty pl).map (fun _ => (self.role, self.remoteRole)) := by
    intro id ty pl
    have h := hrecv id pl
    unfold NetData.sendRpc
    cases self.entity_ with
    | none => rfl
    | some e =>
      simp only
      cases hs : e.isServer with
      | false => simp [Except.map]
      | true =>
        simp only [if_true]
        cases hr : self.receiveRpc id pl with
        | error f => rfl
        | ok r =>
          rw [hr] at h
          simp only [Except.map, Except.ok.injEq, Prod.mk.injEq] at h ⊢
          exact h
  refine ⟨rfl, rfl, ?_, rfl, ?_, hsend _ _ _, hrecv _ _, hsend _ _ _, ?_⟩
  · cases parent <;> rfl
  · unfold NetData.deserialise
    cases NetData.deserialiseLoop self.rep_layout_.property_list_ inp <;> rfl
  · show (RpcSender.sendClientRpcPayload _ bits).map _ = (RpcSender.sendClientRpcPayload _ bits).map _
    unfold RpcSender.sendClientRpcPayload RpcSender.onAddToEntity
    by_cases hrole : self.role = NetRole.AuthoritativeProxy
    · simp only [hrole, ne_eq, not_true_eq_false, if_false]
      have h := hsend rpc_id RpcType.Client bits.vec_data
      rw [hrole] at h
      exact h
    · simp only [ne_eq, hrole, not_false_eq_true, if_true]
      rfl

/-- C19: with `assert` checked, on a sender whose `net_data_` is null, be it default-constructed
or bound to an entity that has no `CNetData` component, each of `shouldShortCircuit`,
`sendServerRpcPayload` and `sendClientRpcPayload` stops at its assertion, having made no call;
on a sender whose `net_data_` is not null none of the three ends in a failed assertion. -/
theorem C19_use_before_bind {P R : Type} (s0 : RpcSender P R) (entity : Entity)
    (net_data : NetData P R) (rpc_id : Nat) (type : RpcType) (payload : OutputBitStream) :
    (RpcSender.new : RpcSender P R).net_data_ = none ∧
    (RpcSender.new : RpcSender P R).shouldShortCircuit type = .error Fault.assertFailed ∧
    (RpcSender.new : RpcSender P R).sendServerRpcPayload payload = .error Fault.assertFailed ∧
    (RpcSender.new : RpcSender P R).sendClientRpcPayload payload = .error Fault.assertFailed ∧
    (s0.onAddToEntity entity none rpc_id).shouldShortCircuit type
      = .error Fault.assertFailed ∧
    (s0.onAddToEntity entity none rpc_id).sendServerRpcPayload payload
      = .error Fault.assertFailed ∧
    (s0.onAddToEntity entity none rpc_id).sendClientRpcPayload payload
      = .error Fault.assertFailed ∧
    RpcSender.shouldShortCircuit { s0 with net_data_ := some net_data } type
      ≠ .error Fault.assertFailed ∧
    RpcSender.sendServerRpcPayload { s0 with net_data_ := some net_data } payload
      ≠ .error Fault.assertFailed ∧
    RpcSender.sendClientRpcPayload { s0 with net_data_ := some net_data } payload
      ≠ .error Fault.assertFailed := by
  have hrecv : ∀ (id : Nat) (pl : List Byte),
      net_data.receiveRpc id pl ≠ .error Fault.assertFailed := by
    intro id pl
    unfold NetData.receiveRpc
    cases RpcBindingMap.find net_data.rep_layout_.rpc_map_ id with
    | some b => simp
    | none => cases net_data.entity_ <;> simp
  have hsend : ∀ (id : Nat) (ty : RpcType) (pl : List Byte),
      net_data.sendRpc id ty pl ≠ .error Fault.assertFailed := by
    intro id ty pl
    have h := hrecv id pl
    unfold NetData.sendRpc
    cases net_data.entity_ with
    | none => simp
    | some e =>
      simp only
      cases hs : e.isServer with
      | false => simp
      | true =>
        simp only [if_true]
        cases hr : net_data.receiveRpc id pl with
        | error f =>
          rw [hr] at h
          simpa using h
        | ok r => simp
  refine ⟨rfl, rfl, rfl, rfl, rfl, rfl, rfl, ?_, hsend _ _ _, ?_⟩
  · unfold RpcSender.shouldShortCircuit
    simp only
    split <;> (try split) <;> simp
  · unfold RpcSender.sendClientRpcPayload
    simp only
    split
    · cases s0.logger_ <;> simp
    · exact hsend _ _ _

/-- C20: on a sender whose `net_data_` is not null, `shouldShortCircuit(type)` returns true
exactly when the type is `Server` and the local role `Authority`, or the type is `Client` and
the local role `AuthoritativeProxy`; the remote role has no part in it. -/
theorem C20_shouldShortCircuit_iff {P R : Type} (s0 : RpcSender P R) (net_data : NetData P R)
    (type : RpcType) :
    RpcSender.shouldShortCircuit { s0 with net_data_ := some net_data } type
      = .ok (decide ((type = RpcType.Server ∧ net_data.role = NetRole.Authority)
          ∨ (type = RpcType.Client ∧ net_data.role = NetRole.AuthoritativeProxy))) ∧
    (∀ remote : NetRole,
      RpcSender.shouldShortCircuit
          { s0 with net_data_ := some { net_data with remote_role_ := remote } } type
        = RpcSender.shouldShortCircuit { s0 with net_data_ := some net_data } type) := by
  refine ⟨?_, fun _ => rfl⟩
  unfold RpcSender.shouldShortCircuit
  cases type <;> cases hrole : net_data.role <;> simp [hrole]

/-! ## Senders bound through the layout -/

namespace RpcBindingMap

variable {R : Type}

theorem mem_of_find (m : RpcBindingMap R) (k : Nat) (v : R) (h : find m k = some v) :
    (k, v) ∈ m := by
  induction m with
  | nil => simp [find] at h
  | cons p m ih =>
    obtain ⟨k', v'⟩ := p
    by_cases hk : k = k'
    · simp only [find, hk, if_true, Option.some.injEq] at h
      subst hk h
      exact List.mem_cons_self _ _
    · simp only [find, hk, if_false] at h
      exact List.mem_cons_of_mem _ (ih h)

end RpcBindingMap

namespace RpcSender

variable {P R : Type}

theorem applyBindCalls_properties [DecidableEq R] (component : Option (NetData P R))
    (senders : R → RpcSender P R) (entity : Entity) (ps : List P) (t : List (BindCall P R)) :
    applyBindCalls component senders
        (ps.map (fun prop => BindCall.RepProperty_onAddToEntity prop entity) ++ t)
      = applyBindCalls component senders t := by
  induction ps with
  | nil => rfl
  | cons prop rest ih => simpa [applyBindCalls] using ih

theorem applyBindCalls_of_not_mem [DecidableEq R] (component : Option (NetData P R))
    (entity : Entity) (m : RpcBindingMap R) (senders : R → RpcSender P R) (b : R)
    (hb : b ∉ RpcBindingMap.bindings m) :
    applyBindCalls component senders
        (m.map (fun rpc => BindCall.RpcBinding_onAddToEntity rpc.2 entity rpc.1)) b
      = senders b := by
  induction m generalizing senders with
  | nil => rfl
  | cons rpc rest ih =>
    simp only [RpcBindingMap.bindings, List.map_cons, List.mem_cons, not_or] at hb
    simp only [List.map_cons, applyBindCalls]
    rw [ih _ hb.2, Function.update_noteq hb.1]

/-- A sender that sits in the map once holds, after the calls, what `onAddToEntity` wrote for
the id it sits under. -/
theorem applyBindCalls_of_mem [DecidableEq R] (component : Option (NetData P R))
    (entity : Entity) (m : RpcBindingMap R) (senders : R → RpcSender P R) (i : Nat) (b : R)
    (hnodup : (RpcBindingMap.bindings m).Nodup) (hmem : (i, b) ∈ m) :
    applyBindCalls component senders
        (m.map (fun rpc => BindCall.RpcBinding_onAddToEntity rpc.2 entity rpc.1)) b
      = { entity_ := some entity, net_data_ := component, logger_ := some Logger.log,
          rpc_id_ := i } := by
  induction m generalizing senders with
  | nil => simp at hmem
  | cons rpc rest ih =>
    simp only [RpcBindingMap.bindings, List.map_cons, List.nodup_cons] at hnodup
    simp only [List.map_cons, applyBindCalls]
    rcases List.mem_cons.mp hmem with h | h
    · subst h
      rw [applyBindCalls_of_not_mem component entity rest _ b hnodup.1, Function.update_same]
      rfl
    · exact ih _ hnodup.2 h

end RpcSender

namespace RepLayout

variable {P R : Type}

theorem add_ofLists_rpc_map (w : Nat) (pa pb : List P) (ra rb : List R)
    (hfit : ra.length + rb.length ≤ 2 ^ w) :
    (add w (ofLists w pa ra) (ofLists w pb rb)).2.rpc_map_ = List.enumFrom 0 (ra ++ rb) := by
  rw [add_snd, ofLists_dense w pa ra (by omega), ofLists_dense w pb rb (by omega),
    addAssign_dense w _ _ ra rfl rfl (by simpa using hfit)]
  simp [RpcBindingMap.bindings, List.enumFrom_map_snd]

end RepLayout

/-- C21 (as amended): let the bindings of the layout be pointers to `RpcSender` objects, no
sender sitting in the RPC map under two ids. On the authority process, after
`NetData::onAddToEntity(entity)`, the sender stored under id `i` holds `rpc_id_ = i`, and
`sendServerRpcPayload(payload)` on it completes having entered `NetData::sendRpc` and
`NetData::receiveRpc` with id `i` and invoked `receiveRpc(payload)` on the binding stored under
id `i`, once, and on no other binding. When the layout is A + B for list-built A and B whose
bindings together number at most `2 ^ w`, the sender that is the j-th binding of B holds
`rpc_id_ = |A.rpcs| + j` and dispatches to that id. -/
theorem C21_sender_id_capture {P R : Type} [DecidableEq R] (w : Nat)
    (propOnAdd : P → Entity → P) (self : NetData P R) (entity : Entity)
    (senders : R → RpcSender P R) (payload : OutputBitStream)
    (hnodup : (RpcBindingMap.bindings self.rep_layout_.rpc_map_).Nodup)
    (hserver : entity.isServer = true) :
    ∃ nd t, NetData.onAddToEntity propOnAdd (fun rpc _ _ => rpc) self (some entity)
        = .ok (nd, t) ∧
      nd.rep_layout_.rpc_map_ = self.rep_layout_.rpc_map_ ∧
      (∀ i b, RpcBindingMap.find self.rep_layout_.rpc_map_ i = some b →
        (RpcSender.applyBindCalls (some nd) senders t b).rpc_id_ = i ∧
        (RpcSender.applyBindCalls (some nd) senders t b).sendServerRpcPayload payload
          = .ok (nd, [Call.NetData_sendRpc i RpcType.Server payload.vec_data,
              Call.NetData_receiveRpc i payload.vec_data,
              Call.RpcBinding_receiveRpc b payload.vec_data])) ∧
      (∀ (pa pb : List P) (ra rb : List R),
        self.rep_layout_
          = (RepLayout.add w (RepLayout.ofLists w pa ra) (RepLayout.ofLists w pb rb)).2 →
        ra.length + rb.length ≤ 2 ^ w →
        ∀ j (hj : j < rb.length),
          (RpcSender.applyBindCalls (some nd) senders t (rb.get ⟨j, hj⟩)).rpc_id_
            = ra.length + j ∧
          (RpcSender.applyBindCalls (some nd) senders t
              (rb.get ⟨j, hj⟩)).sendServerRpcPayload payload
            = .ok (nd, [Call.NetData_sendRpc (ra.length + j) RpcType.Server payload.vec_data,
                Call.NetData_receiveRpc (ra.length + j) payload.vec_data,
                Call.RpcBinding_receiveRpc (rb.get ⟨j, hj⟩) payload.vec_data])) := by
  have hmapid : self.rep_layout_.rpc_map_.map (fun rpc => (rpc.1, rpc.2))
      = self.rep_layout_.rpc_map_ := by
    simp
  have hrun : NetData.onAddToEntity propOnAdd (fun rpc _ _ => rpc) self (some entity)
      = .ok ({ self with
          entity_ := some entity
          rep_layout_ := { self.rep_layout_ with
            property_list_ := self.rep_layout_.property_list_.map
              (fun prop => propOnAdd prop entity) } },
        self.rep_layout_.property_list_.map
            (fun prop => BindCall.RepProperty_onAddToEntity prop entity)
          ++ self.rep_layout_.rpc_map_.map
            (fun rpc => BindCall.RpcBinding_onAddToEntity rpc.2 entity rpc.1)) := by
    simp only [NetData.onAddToEntity, RepLayout.onAddToEntity,
      RepLayout.onAddToEntityProps_eq, RepLayout.onAddToEntityRpcs_eq, hmapid]
  have key : ∀ i b, RpcBindingMap.find self.rep_layout_.rpc_map_ i = some b →
      (RpcSender.applyBindCalls
          (some ({ self with
            entity_ := some entity
            rep_layout_ := { self.rep_layout_ with
              property_list_ := self.rep_layout_.property_list_.map
                (fun prop => propOnAdd prop entity) } } : NetData P R)) senders
          (self.rep_layout_.property_list_.map
              (fun prop => BindCall.RepProperty_onAddToEntity prop entity)
            ++ self.rep_layout_.rpc_map_.map
              (fun rpc => BindCall.RpcBinding_onAddToEntity rpc.2 entity rpc.1)) b)
        = { entity_ := some entity,
            net_data_ := some { self with
              entity_ := some entity
              rep_layout_ := { self.rep_layout_ with
                property_list_ := self.rep_layout_.property_list_.map
                  (fun prop => propOnAdd prop entity) } },
            logger_ := some Logger.log, rpc_id_ := i } := by
    intro i b hfind
    rw [RpcSender.applyBindCalls_properties]
    exact RpcSender.applyBindCalls_of_mem _ entity _ senders i b hnodup
      (RpcBindingMap.mem_of_find _ _ _ hfind)
  have main : ∀ i b, RpcBindingMap.find self.rep_layout_.rpc_map_ i = some b →
      (RpcSender.applyBindCalls
          (some ({ self with
            entity_ := some entity
            rep_layout_ := { self.rep_layout_ with
              property_list_ := self.rep_layout_.property_list_.map
                (fun prop => propOnAdd prop entity) } } : NetData P R)) senders
          (self.rep_layout_.property_list_.map
              (fun prop => BindCall.RepProperty_onAddToEntity prop entity)
            ++ self.rep_layout_.rpc_map_.map
              (fun rpc => BindCall.RpcBinding_onAddToEntity rpc.2 entity rpc.1)) b).rpc_id_ = i ∧
      (RpcSender.applyBindCalls
          (some ({ self with
            entity_ := some entity
            rep_layout_ := { self.rep_layout_ with
              property_list_ := self.rep_layout_.property_list_.map
                (fun prop => propOnAdd prop entity) } } : NetData P R)) senders
          (self.rep_layout_.property_list_.map
              (fun prop => BindCall.RepProperty_onAddToEntity prop entity)
            ++ self.rep_layout_.rpc_map_.map
              (fun rpc => BindCall.RpcBinding_onAddToEntity rpc.2 entity rpc.1))
          b).sendServerRpcPayload payload
        = .ok ({ self with
            entity_ := some entity
            rep_layout_ := { self.rep_layout_ with
              property_list_ := self.rep_layout_.property_list_.map
                (fun prop => propOnAdd prop entity) } },
          [Call.NetData_sendRpc i RpcType.Server payload.vec_data,
            Call.NetData_receiveRpc i payload.vec_data,
            Call.RpcBinding_receiveRpc b payload.vec_data]) := by
    intro i b hfind
    rw [key i b hfind]
    refine ⟨rfl, ?_⟩
    simp [RpcSender.sendServerRpcPayload, NetData.sendRpc, NetData.receiveRpc, hserver, hfind]
  refine ⟨_, _, hrun, rfl, main, ?_⟩
  intro pa pb ra rb hlayout hfit j hj
  have hmap := RepLayout.add_ofLists_rpc_map w pa pb ra rb hfit
  rw [← hlayout] at hmap
  have hfind : RpcBindingMap.find self.rep_layout_.rpc_map_ (ra.length + j)
      = some (rb.get ⟨j, hj⟩) := by
    have h := RpcBindingMap.find_enumFrom (ra ++ rb) 0 (ra.length + j)
    rw [Nat.zero_add] at h
    rw [hmap, h, List.getElem?_append_right (by omega), Nat.add_sub_cancel_left,
      List.getElem?_eq_getElem hj]
    rfl
  exact main _ _ hfind

/-- C21 (witness): the layout A + B of A with the senders `100, 101` and B with the sender
`102`, on the authority: after the bind the sender `102` holds `rpc_id_ = 2` and dispatches to
the binding stored under id 2. -/
theorem C21_sender_id_capture_witness :
    ∃ nd t, NetData.onAddToEntity (fun (prop : Nat) _ => prop) (fun (rpc : Nat) _ _ => rpc)
        (NetData.new (RepLayout.add 16 (RepLayout.ofLists 16 [1] [100, 101])
          (RepLayout.ofLists 16 [2] [102])).2) (some ⟨7, true⟩) = .ok (nd, t) ∧
      (RpcSender.applyBindCalls (some nd) (fun _ => RpcSender.new) t 102).rpc_id_ = 2 ∧
      (RpcSender.applyBindCalls (some nd) (fun _ => RpcSender.new) t 102).sendServerRpcPayload
          ⟨[5]⟩
        = .ok (nd, [Call.NetData_sendRpc 2 RpcType.Server [5], Call.NetData_receiveRpc 2 [5],
            Call.RpcBinding_receiveRpc 102 [5]]) :=
  have h := C21_sender_id_capture 16 (fun (prop : Nat) _ => prop)
    (NetData.new (RepLayout.add 16 (RepLayout.ofLists 16 [1] [100, 101])
      (RepLayout.ofLists 16 [2] [102])).2) ⟨7, true⟩ (fun _ => RpcSender.new) ⟨[5]⟩
    (by decide) rfl
  h.elim (fun nd h1 => h1.elim (fun t ht =>
    ⟨nd, t, ht.1, (ht.2.2.1 2 102 rfl).1, (ht.2.2.1 2 102 rfl).2⟩))

/-- C21 (counterexample): a layout built by the list constructor from the same sender `5`
twice, on the authority. The sender is stored under the ids 0 and 1; the bind calls
`onAddToEntity` on it with id 0 and then with id 1, so the sender stored under id 0 holds
`rpc_id_ = 1` and its send dispatches to id 1. -/
theorem C21_shared_sender_counterexample :
    RpcBindingMap.find (RepLayout.ofLists 16 ([] : List Nat) [5, 5]).rpc_map_ 0 = some 5 ∧
    NetData.onAddToEntity (fun (prop : Nat) _ => prop) (fun (rpc : Nat) _ _ => rpc)
        (NetData.new (RepLayout.ofLists 16 ([] : List Nat) [5, 5])) (some ⟨7, true⟩)
      = .ok (⟨some ⟨7, true⟩, RepLayout.ofLists 16 ([] : List Nat) [5, 5], NetRole.None,
          NetRole.None⟩,
        [BindCall.RpcBinding_onAddToEntity 5 ⟨7, true⟩ 0,
          BindCall.RpcBinding_onAddToEntity 5 ⟨7, true⟩ 1]) ∧
    (RpcSender.applyBindCalls
        (some (⟨some ⟨7, true⟩, RepLayout.ofLists 16 ([] : List Nat) [5, 5], NetRole.None,
          NetRole.None⟩ : NetData Nat Nat))
        (fun _ => RpcSender.new)
        [BindCall.RpcBinding_onAddToEntity 5 ⟨7, true⟩ 0,
          BindCall.RpcBinding_onAddToEntity 5 ⟨7, true⟩ 1] 5).rpc_id_ = 1 ∧
    (RpcSender.applyBindCalls
        (some (⟨some ⟨7, true⟩, RepLayout.ofLists 16 ([] : List Nat) [5, 5], NetRole.None,
          NetRole.None⟩ : NetData Nat Nat))
        (fun _ => RpcSender.new)
        [BindCall.RpcBinding_onAddToEntity 5 ⟨7, true⟩ 0,
          BindCall.RpcBinding_onAddToEntity 5 ⟨7, true⟩ 1] 5).sendServerRpcPayload ⟨[9]⟩
      = .ok (⟨some ⟨7, true⟩, RepLayout.ofLists 16 ([] : List Nat) [5, 5], NetRole.None,
          NetRole.None⟩,
        [Call.NetData_sendRpc 1 RpcType.Server [9], Call.NetData_receiveRpc 1 [9],
          Call.RpcBinding_receiveRpc 5 [9]]) :=
  ⟨rfl, rfl, rfl, rfl⟩

/-! ## Serialisation and composition -/

/-- C22 (as amended): for all layouts A and B and any property values, the bytes
`NetData::serialise` writes for the layout A + B are the bytes written for A followed by the
bytes written for B, and those for B + A are the bytes for B followed by the bytes for A; the
two streams differ whenever the two parts serialise to different byte strings of the same
length. -/
theorem C22_serialise_distributes {R V : Type} (w : Nat) (self : NetData (RepProperty V) R)
    (a b : RepLayout (RepProperty V) R) (out : OutputStream) :
    (NetData.serialise { self with rep_layout_ := (RepLayout.add w a b).2 } out).2
      = (NetData.serialise { self with rep_layout_ := b }
          (NetData.serialise { self with rep_layout_ := a } out).2).2 ∧
    (NetData.serialise { self with rep_layout_ := (RepLayout.add w a b).2 } []).2
      = (NetData.serialise { self with rep_layout_ := a } []).2
        ++ (NetData.serialise { self with rep_layout_ := b } []).2 ∧
    (NetData.serialise { self with rep_layout_ := (RepLayout.add w b a).2 } []).2
      = (NetData.serialise { self with rep_layout_ := b } []).2
        ++ (NetData.serialise { self with rep_layout_ := a } []).2 ∧
    ((NetData.serialise { self with rep_layout_ := a } []).2.length
        = (NetData.serialise { self with rep_layout_ := b } []).2.length →
      (NetData.serialise { self with rep_layout_ := a } []).2
        ≠ (NetData.serialise { self with rep_layout_ := b } []).2 →
      (NetData.serialise { self with rep_layout_ := (RepLayout.add w a b).2 } []).2
        ≠ (NetData.serialise { self with rep_layout_ := (RepLayout.add w b a).2 } []).2) := by
  have hab : ∀ (x y : RepLayout (RepProperty V) R) (o : OutputStream),
      (NetData.serialise { self with rep_layout_ := (RepLayout.add w x y).2 } o).2
        = o ++ (x.property_list_.map (fun p => p.encode p.value)).flatten
          ++ (y.property_list_.map (fun p => p.encode p.value)).flatten := by
    intro x y o
    show NetData.serialiseLoop (RepLayout.add w x y).2.property_list_ o = _
    rw [RepLayout.add_snd, RepLayout.addAssign_property_list, NetData.serialiseLoop_eq]
    simp [List.append_assoc]
  have hone : ∀ (x : RepLayout (RepProperty V) R) (o : OutputStream),
      (NetData.serialise { self with rep_layout_ := x } o).2
        = o ++ (x.property_list_.map (fun p => p.encode p.value)).flatten := by
    intro x o
    exact NetData.serialiseLoop_eq _ _
  refine ⟨?_, ?_, ?_, ?_⟩
  · rw [hab, hone, hone]
  · rw [hab, hone, hone]
    simp
  · rw [hab, hone, hone]
    simp
  · intro hlen hne heq
    rw [hab, hab] at heq
    rw [hone, hone] at hlen hne
    simp only [List.nil_append] at heq hlen hne
    exact hne (List.append_inj_left heq hlen)

/-- C22 (witness): A with one byte property holding 1, B with one byte property holding 2:
A + B serialises to `[1, 2]`, B + A to `[2, 1]`. -/
theorem C22_serialise_distributes_witness :
    (NetData.serialise
        (NetData.new (RepLayout.add 16 (RepLayout.ofLists 16 [RepProperty.u8 1] ([] : List Nat))
          (RepLayout.ofLists 16 [RepProperty.u8 2] [])).2) []).2
      ≠ (NetData.serialise
        (NetData.new (RepLayout.add 16 (RepLayout.ofLists 16 [RepProperty.u8 2] ([] : List Nat))
          (RepLayout.ofLists 16 [RepProperty.u8 1] [])).2) []).2 :=
  (C22_serialise_distributes 16 (NetData.new RepLayout.new)
    (RepLayout.ofLists 16 [RepProperty.u8 1] ([] : List Nat))
    (RepLayout.ofLists 16 [RepProperty.u8 2] []) []).2.2.2 rfl (by decide)

/-- C22 (counterexample): A with one byte property holding 1, B with two byte properties
holding 1 and 1. The two parts serialise differently (`[1]` and `[1, 1]`), and yet A + B and
B + A serialise to the same bytes `[1, 1, 1]`. -/
theorem C22_same_bytes_counterexample :
    (NetData.serialise
        (NetData.new (RepLayout.ofLists 16 [RepProperty.u8 1] ([] : List Nat))) []).2 = [1] ∧
    (NetData.serialise
        (NetData.new (RepLayout.ofLists 16 [RepProperty.u8 1, RepProperty.u8 1]
          ([] : List Nat))) []).2 = [1, 1] ∧
    (NetData.serialise
        (NetData.new (RepLayout.add 16 (RepLayout.ofLists 16 [RepProperty.u8 1] ([] : List Nat))
          (RepLayout.ofLists 16 [RepProperty.u8 1, RepProperty.u8 1] [])).2) []).2
      = (NetData.serialise
        (NetData.new (RepLayout.add 16
          (RepLayout.ofLists 16 [RepProperty.u8 1, RepProperty.u8 1] ([] : List Nat))
          (RepLayout.ofLists 16 [RepProperty.u8 1] [])).2) []).2 :=
  ⟨rfl, rfl, rfl⟩

/-! ## Engine sessions -/

namespace Engine

variable {S : Type}

theorem index_mk (n : Nat) : SessionId.index { session_index_ := n } = n := rfl

theorem addSession_eq (self : Engine S) (session : Option S) :
    self.addSession session
      = ({ game_sessions_ := self.game_sessions_ ++ [session] },
        { session_index_ :=
            ((self.game_sessions_ ++ [session]).length % 2 ^ 32 + 2 ^ 32 - 1) % 2 ^ 32 }) :=
  rfl

/-- The id `addSession` returns never exceeds the session count after the call. -/
theorem addSession_index_le (self : Engine S) (session : Option S) :
    ¬ ((self.addSession session).1.game_sessions_.length
      < (self.addSession session).2.index) := by
  rw [addSession_eq, index_mk, List.length_append, List.length_singleton]
  omega

theorem replaceSession_of_not_lt (self : Engine S) (session_id : SessionId)
    (session : Option S) (h : ¬ (self.game_sessions_.length < session_id.index)) :
    self.replaceSession session_id session = .error Fault.assertFailed := by
  unfold replaceSession
  rw [if_pos h]

end Engine

/-- C23 (the code at the failing input): `addSession` appends the session and, below `2 ^ 32`
sessions, returns the id whose index is the session count before the call; but for the id it
has just returned, and for every id whose index is below the session count, `replaceSession`
stops at its assertion `game_sessions_.size() < session_id.index()` and stores nothing. On a
fresh engine: `addSession` returns index 0 and `replaceSession` of that id fails the
assertion `1 < 0`. -/
theorem C23_replaceSession_assertion_reversed {S : Type} (self : Engine S)
    (session other : Option S) (session_id : SessionId) :
    (self.addSession session).1.game_sessions_ = self.game_sessions_ ++ [session] ∧
    (self.game_sessions_.length < 2 ^ 32 →
      (self.addSession session).2.index = self.game_sessions_.length) ∧
    Engine.replaceSession (self.addSession session).1 (self.addSession session).2 other
      = .error Fault.assertFailed ∧
    (session_id.index < self.game_sessions_.length →
      self.replaceSession session_id other = .error Fault.assertFailed) ∧
    (Engine.addSession (⟨[]⟩ : Engine Nat) (some 1)).2.index = 0 ∧
    Engine.replaceSession (Engine.addSession (⟨[]⟩ : Engine Nat) (some 1)).1
        (Engine.addSession (⟨[]⟩ : Engine Nat) (some 1)).2 (some 2)
      = .error Fault.assertFailed := by
  refine ⟨?_, ?_, ?_, ?_, rfl, rfl⟩
  · rw [Engine.addSession_eq]
  · intro h
    rw [Engine.addSession_eq, Engine.index_mk, List.length_append, List.length_singleton]
    omega
  · exact Engine.replaceSession_of_not_lt _ _ _ (Engine.addSession_index_le self session)
  · intro h
    exact Engine.replaceSession_of_not_lt _ _ _ (by omega)

/-! ## ConfigNode: the converter of `int` -/

theorem toNat_digit (d : Nat) (hd : d < 10) : (Char.ofNat (48 + d)).toNat = 48 + d := by
  interval_cases d <;> rfl

theorem isdigit_digit (n : Nat) : isdigit (Char.ofNat (48 + n % 10)) = true := by
  have h := toNat_digit (n % 10) (Nat.mod_lt _ (by decide))
  unfold isdigit
  rw [h]
  simp only [Bool.and_eq_true, decide_eq_true_eq]
  omega

theorem isspace_of_isdigit (c : Char) (h : isdigit c = true) : isspace c = false := by
  unfold isdigit at h
  unfold isspace
  simp only [Bool.and_eq_true, decide_eq_true_eq] at h
  simp only [Bool.or_eq_false_iff, Bool.and_eq_false_iff, decide_eq_false_iff_not]
  omega

theorem sign_of_isdigit (c : Char) (h : isdigit c = true) :
    (c.toNat == 45) = false ∧ (c.toNat == 43) = false := by
  unfold isdigit at h
  simp only [Bool.and_eq_true, decide_eq_true_eq] at h
  simp only [beq_eq_false_iff_ne, ne_eq]
  omega

theorem decimalDigits_append (fuel n : Nat) (acc : List Char) :
    decimalDigits fuel n acc = decimalDigits fuel n [] ++ acc := by
  induction fuel generalizing n acc with
  | zero => simp [decimalDigits]
  | succ fuel ih =>
    by_cases h : n / 10 = 0
    · simp [decimalDigits, h]
    · simp only [decimalDigits, h, if_false]
      rw [ih (n / 10) (_ :: acc), ih (n / 10) [_]]
      simp

theorem decimalDigits_isdigit (fuel n : Nat) :
    ∀ c ∈ decimalDigits fuel n [], isdigit c = true := by
  induction fuel generalizing n with
  | zero => simp [decimalDigits]
  | succ fuel ih =>
    intro c hc
    by_cases h : n / 10 = 0
    · simp only [decimalDigits, h, if_true, List.mem_singleton] at hc
      rw [hc]
      exact isdigit_digit n
    · simp only [decimalDigits, h, if_false] at hc
      rw [decimalDigits_append, List.mem_append, List.mem_singleton] at hc
      rcases hc with hc | hc
      · exact ih _ c hc
      · rw [hc]
        exact isdigit_digit n

theorem decimalDigits_ne_nil (fuel n : Nat) : decimalDigits (fuel + 1) n [] ≠ [] := by
  by_cases h : n / 10 = 0
  · simp [decimalDigits, h]
  · simp only [decimalDigits, h, if_false]
    rw [decimalDigits_append]
    simp

theorem digitsValue_append (l : List Char) (c : Char) :
    digitsValue (l ++ [c]) = digitsValue l * 10 + (c.toNat - 48) := by
  simp [digitsValue, List.foldl_append]

theorem digitsValue_decimalDigits (fuel n : Nat) (h : n < fuel) :
    digitsValue (decimalDigits fuel n []) = n := by
  induction fuel generalizing n with
  | zero => omega
  | succ fuel ih =>
    have hd := toNat_digit (n % 10) (Nat.mod_lt _ (by decide))
    by_cases h0 : n / 10 = 0
    · simp only [decimalDigits, h0, if_true, digitsValue, List.foldl_cons, List.foldl_nil]
      rw [hd]
      omega
    · simp only [decimalDigits, h0, if_false]
      rw [decimalDigits_append, digitsValue_append, ih (n / 10) (by omega), hd]
      omega
theorem stoi_digits (ds : List Char) (hne : ds ≠ []) (hall : ∀ c ∈ ds, isdigit c = true) :
    stoi ds = if (digitsValue ds : Int) < - 2 ^ 31 ∨ 2 ^ 31 ≤ (digitsValue ds : Int)
      then .error StoiError.out_of_range else .ok (digitsValue ds : Int) := by
  cases ds with
  | nil => exact absurd rfl hne
  | cons c rest =>
    have hc : isdigit c = true := hall c (List.mem_cons_self _ _)
    have hsp : isspace c = false := isspace_of_isdigit c hc
    have hsign := sign_of_isdigit c hc
    have htake : (c :: rest).takeWhile isdigit = c :: rest :=
      List.takeWhile_eq_self_iff.mpr hall
    unfold stoi
    rw [List.dropWhile_cons_of_neg (by simp [hsp])]
    simp only [hsign.1, hsign.2, Bool.or_false, Bool.false_eq_true, if_false, htake,
      List.isEmpty_cons]

theorem stoi_minus_digits (ds : List Char) (hne : ds ≠ [])
    (hall : ∀ c ∈ ds, isdigit c = true) :
    stoi (Char.ofNat 45 :: ds)
      = if - (digitsValue ds : Int) < - 2 ^ 31 ∨ 2 ^ 31 ≤ - (digitsValue ds : Int)
        then .error StoiError.out_of_range else .ok (- (digitsValue ds : Int)) := by
  have hsp : isspace (Char.ofNat 45) = false := by decide
  have h45 : ((Char.ofNat 45).toNat == 45) = true := by decide
  have htake : ds.takeWhile isdigit = ds := List.takeWhile_eq_self_iff.mpr hall
  have hemp : ds.isEmpty = false := by
    cases ds with
    | nil => exact absurd rfl hne
    | cons c rest => rfl
  unfold stoi
  rw [List.dropWhile_cons_of_neg (by simp [hsp])]
  simp only [h45, Bool.true_or, if_true, htake, hemp, Bool.false_eq_true, if_false]

theorem stoi_to_string (n : Int) (hlo : - 2 ^ 31 ≤ n) (hhi : n < 2 ^ 31) :
    stoi (to_string n) = .ok n := by
  have hv := digitsValue_decimalDigits (n.natAbs + 1) n.natAbs (Nat.lt_succ_self _)
  have hne := decimalDigits_ne_nil n.natAbs n.natAbs
  have hall := decimalDigits_isdigit (n.natAbs + 1) n.natAbs
  unfold to_string
  by_cases hneg : n < 0
  · rw [if_pos hneg, stoi_minus_digits _ hne hall, hv]
    have habs : - (n.natAbs : Int) = n := by
      rw [Int.ofNat_natAbs_of_nonpos (Int.le_of_lt hneg), Int.neg_neg]
    rw [habs, if_neg (by omega)]
  · rw [if_neg hneg, stoi_digits _ hne hall, hv]
    have habs : (n.natAbs : Int) = n := Int.natAbs_of_nonneg (by omega)
    rw [habs, if_neg (by omega)]
/-- C24: for every `int` value `n` (32 bits), `Converter<int>::encode(n)` is a scalar node
holding the decimal text of `n`, and `Converter<int>::decode` of that node returns true, sets
the output to `n` and logs nothing; for a node that is not a scalar, `decode` returns false and
leaves the output as it was. -/
theorem C24_int_round_trip (n rhs : Int) (tag : Nat) (scalar : List Char)
    (hlo : - 2 ^ 31 ≤ n) (hhi : n < 2 ^ 31) :
    Converter_int.encode n = { mType := NodeType.NT_SCALAR, scalar := to_string n } ∧
    stoi (to_string n) = .ok n ∧
    Converter_int.decode (Converter_int.encode n) rhs = (true, n, []) ∧
    Converter_int.decode { mType := NodeType.other tag, scalar := scalar } rhs
      = (false, rhs, []) := by
  have h := stoi_to_string n hlo hhi
  refine ⟨rfl, h, ?_, rfl⟩
  unfold Converter_int.decode Converter_int.encode
  simp only [ne_eq, not_true_eq_false, if_false, h]

/-- C24 (witness): the smallest `int`, whose text has a minus sign and ten digits. -/
theorem C24_int_round_trip_witness :
    (- 2 ^ 31 ≤ (-2147483648 : Int)) ∧ ((-2147483648 : Int) < 2 ^ 31) ∧
    Converter_int.decode (Converter_int.encode (-2147483648)) 7 = (true, -2147483648, []) ∧
    Converter_int.decode { mType := NodeType.other 3, scalar := [] } 7 = (false, 7, []) :=
  ⟨by decide, by decide,
    (C24_int_round_trip (-2147483648) 7 3 [] (by decide) (by decide)).2.2.1,
    (C24_int_round_trip (-2147483648) 7 3 [] (by decide) (by decide)).2.2.2⟩

end dw
